import Mathlib

/-!
Verification of the SuperStyleSheet compiler (superss): a shallow embedding of
the lexer, parser, AST and CSS emitter from src/superss, together with theorems
settling the specification claims about them.

Conventions of the embedding:
* Python strings are Lean `String`s; indexing and comparison work on `.data`
  (code-point lists), matching Python semantics.
* Python exceptions are modelled as `Except` / explicit error constructors:
  `ValueError` in the compiler's symbol pass is `CErr.duplicateSymbol`, a dict
  `KeyError` is `CErr.keyError`, `IndexError` from `single_css[0]` is
  `CErr.indexError`, an `AttributeError` from touching `None.type`/`None.value`
  is `CErr.noneTypeError`.
* Python's ordered `dict` is an association list extended at the end;
  `sorted` on strings is an insertion sort by code-point lexicographic order.
* List comprehensions that can raise are `mapE`; accumulating loops that can
  raise are `foldE` (first error wins, like Python).
-/

namespace SuperSS

/-- Token kinds, from `superss/lexer.py` (`TokenType`). The two selector-prefix
glyph kinds `.` and `#` are named `CLASS_PREF` / `ID_PREF` here. -/
inductive TokenType where
  | STAR
  | COMMA
  | AFTER
  | BEFORE
  | CHILD
  | ID_PREF
  | CLASS_PREF
  | SINGLE_COLON
  | PSEUDO_ELEMENT
  | ATTR_EQUALS
  | ATTR_CONTAINS_WORD
  | ATTR_CONTAINS
  | ATTR_STARTS_WITH_WORD
  | ATTR_STARTS_WITH
  | ATTR_ENDS_WITH
  | LINE_END
  | PAREN_L
  | PAREN_R
  | CURLY_L
  | CURLY_R
  | SQUARE_L
  | SQUARE_R
  | IDENTIFIER
  | HTML_ELEMENT
  | CSS_PROPERTY
  | USING
  | MIXIN
  | ALIAS
  | AS
  | STRING
  | EOF
  | CSS_PROPERTY_VALUE
  | SPACE
  deriving DecidableEq, Repr

/-- A lexed token: kind, value text and optional source position
(`superss/lexer.py`, class `Token`; the `EOF` token has value `None` in
Python, modelled as `""` here, and no position). -/
structure Token where
  type : TokenType
  value : String
  line : Option Nat := none
  column : Option Nat := none
  deriving DecidableEq, Repr

/-- Source `STYLE_BEGIN` from `superss/lexer.py`. -/
def STYLE_BEGIN : List TokenType :=
  [TokenType.HTML_ELEMENT, TokenType.CLASS_PREF, TokenType.ID_PREF, TokenType.STAR]

/-- Source `COMBINATORS` from `superss/lexer.py`. -/
def COMBINATORS : List TokenType :=
  [TokenType.BEFORE, TokenType.AFTER, TokenType.CHILD]

/-- Source `ATTRIBUTE_OPERATORS` from `superss/lexer.py`. -/
def ATTRIBUTE_OPERATORS : List TokenType :=
  [TokenType.ATTR_EQUALS, TokenType.ATTR_CONTAINS, TokenType.ATTR_CONTAINS_WORD,
   TokenType.ATTR_STARTS_WITH_WORD, TokenType.ATTR_ENDS_WITH, TokenType.ATTR_STARTS_WITH]

/-- Source `IDENTIFIERS` from `superss/lexer.py`. -/
def IDENTIFIERS : List TokenType :=
  [TokenType.IDENTIFIER, TokenType.CSS_PROPERTY, TokenType.HTML_ELEMENT]

/-- Runtime errors of the compiler / emitter (Python exception kinds). -/
inductive CErr where
  | duplicateSymbol (symbol : Token)
  | keyError (name : String)
  | indexError
  | noneTypeError
  deriving DecidableEq, Repr

/-- Source `mapE f l` is the Python list comprehension `[f(x) for x in l]` where `f`
may raise: elements are evaluated left to right, the first error aborts. -/
def mapE {α β ε : Type} (f : α → Except ε β) : List α → Except ε (List β)
  | [] => Except.ok []
  | a :: as =>
    match f a with
    | Except.error e => Except.error e
    | Except.ok b =>
      match mapE f as with
      | Except.error e => Except.error e
      | Except.ok bs => Except.ok (b :: bs)

/-- Source `foldE f b l` is a Python `for` loop over `l` accumulating into `b`, where
the body may raise: the first error aborts. -/
def foldE {α β ε : Type} (f : β → α → Except ε β) : β → List α → Except ε β
  | b, [] => Except.ok b
  | b, a :: as =>
    match f b a with
    | Except.error e => Except.error e
    | Except.ok b2 => foldE f b2 as

/-- Python's `sorted` on a list of strings: code-point lexicographic order
(on `String.data`), realised as an insertion sort. Strings that compare equal
are identical, so this agrees with Python's stable sort. -/
def sortStrings (l : List String) : List String :=
  l.insertionSort (fun a b => a.data ≤ b.data)

instance : IsTotal String (fun a b => a.data ≤ b.data) :=
  ⟨fun a b => le_total a.data b.data⟩

instance : IsTrans String (fun a b => a.data ≤ b.data) :=
  ⟨fun _ _ _ hab hbc => le_trans hab hbc⟩

/-- Python `''.join(l)`: plain concatenation. -/
def str_join : List String → String
  | [] => ""
  | s :: rest => s ++ str_join rest

/-- Python `sep.join(l)`. -/
def str_intercalate (sep : String) : List String → String
  | [] => ""
  | [s] => s
  | s :: rest => s ++ sep ++ str_intercalate sep rest

/-- Source `AttributeSelectorNode` from `superss/nodes.py`; the Python field
`attribute` is `attr` here (`attribute` is reserved in Lean). -/
structure AttributeSelectorNode where
  attr : Token
  operator : Option Token := none
  value : Option Token := none
  deriving DecidableEq, Repr

/-- Source `PseudoClassNode` from `superss/nodes.py`. -/
structure PseudoClassNode where
  identifier : Token
  attr_selector_nodes : List AttributeSelectorNode
  deriving DecidableEq, Repr

/-- Source `PseudoElementNode` from `superss/nodes.py`. -/
structure PseudoElementNode where
  identifier : Token
  attr_selector_nodes : List AttributeSelectorNode
  deriving DecidableEq, Repr

/-- Source `SelectorSequenceNode` from `superss/nodes.py`. -/
structure SelectorSequenceNode where
  sequence : List Token
  attribute_selectors : List AttributeSelectorNode
  pseudo_class_nodes : List PseudoClassNode
  deriving DecidableEq, Repr

/-- Source `SingleSelectorNode` from `superss/nodes.py`. -/
structure SingleSelectorNode where
  first_selector_sequence_node : SelectorSequenceNode
  combinator_selector_list : List (Token × SelectorSequenceNode)
  parent_combinator : Option Token
  pseudo_element_node : Option PseudoElementNode
  deriving DecidableEq, Repr

/-- Source `SelectorNode` from `superss/nodes.py`: a selector group with an optional
(non-owning, acyclic) reference to the lexically enclosing group. -/
inductive SelectorNode where
  | mk (single_selector_nodes : List SingleSelectorNode)
       (parent_selector_node : Option SelectorNode)

/-- The group's own single selectors. -/
def SelectorNode.single_selector_nodes : SelectorNode → List SingleSelectorNode
  | SelectorNode.mk s _ => s

/-- The enclosing selector group, if any. -/
def SelectorNode.parent_selector_node : SelectorNode → Option SelectorNode
  | SelectorNode.mk _ p => p

/-- Source `PropertyNode` from `superss/nodes.py`. -/
structure PropertyNode where
  property_token : Token
  property_value_token : Token
  deriving DecidableEq, Repr

/-- Source `IdentifierListNode` from `superss/nodes.py`. -/
structure IdentifierListNode where
  identifiers : List Token
  deriving DecidableEq, Repr

mutual
/-- Source `StyleNode` from `superss/nodes.py`. -/
inductive StyleNode where
  | mk (selector_node : SelectorNode) (style_body_node : StyleBodyNode)
       (mixin_list : Option IdentifierListNode)
/-- Source `StyleBodyNode` from `superss/nodes.py`. -/
inductive StyleBodyNode where
  | mk (property_nodes : List PropertyNode) (children_style_nodes : List StyleNode)
end

/-- Property declarations of a style body. -/
def StyleBodyNode.property_nodes : StyleBodyNode → List PropertyNode
  | StyleBodyNode.mk p _ => p

/-- Nested style children of a style body. -/
def StyleBodyNode.children_style_nodes : StyleBodyNode → List StyleNode
  | StyleBodyNode.mk _ c => c

/-- The style's selector group. -/
def StyleNode.selector_node : StyleNode → SelectorNode
  | StyleNode.mk s _ _ => s

/-- The style's body. -/
def StyleNode.style_body_node : StyleNode → StyleBodyNode
  | StyleNode.mk _ b _ => b

/-- The style's optional `using` list. -/
def StyleNode.mixin_list : StyleNode → Option IdentifierListNode
  | StyleNode.mk _ _ m => m

/-- Source `MixinDefNode` from `superss/nodes.py`. -/
structure MixinDefNode where
  symbol : Token
  style_body_node : StyleBodyNode

/-- Source `AliasDefNode` from `superss/nodes.py`. -/
structure AliasDefNode where
  symbol : Token
  selector_node : Option SelectorNode

/-- A statement of the root: the closed union of the Python `Node` subclasses
that `Parser._make_root` can append (`StyleNode` is the only `CSSNode` among
them). -/
inductive Statement where
  | style (node : StyleNode)
  | mixin_def (node : MixinDefNode)
  | alias_def (node : AliasDefNode)

/-- Source `RootNode` from `superss/nodes.py`. -/
structure RootNode where
  statements : List Statement

/-- The `isinstance(stmt, CSSNode)` filter of `RootNode.parse_css`:
only style statements are CSS nodes. -/
def Statement.as_css_node : Statement → Option StyleNode
  | Statement.style s => some s
  | _ => none

/-- The token value, quoted when it is a string literal
(`AttributeSelectorNode.parse_css`, value rendering). -/
def attr_value_str (v : Token) : String :=
  if v.type = TokenType.STRING then "\"" ++ v.value ++ "\"" else v.value

/-- Source `AttributeSelectorNode.parse_css` (pretty): `[attr]` or `[attr op value]`.
Reading `.type` of an absent value is Python's `AttributeError`. -/
def AttributeSelectorNode.parse_css (a : AttributeSelectorNode) : Except CErr String :=
  match a.operator with
  | none => Except.ok ("[" ++ a.attr.value ++ "]")
  | some op =>
    match a.value with
    | none => Except.error CErr.noneTypeError
    | some v =>
      Except.ok ("[" ++ a.attr.value ++ " " ++ op.value ++ " " ++ attr_value_str v ++ "]")

/-- Source `AttributeSelectorNode.parse_min_css` (minified): no inner spaces. -/
def AttributeSelectorNode.parse_min_css (a : AttributeSelectorNode) : Except CErr String :=
  match a.operator with
  | none => Except.ok ("[" ++ a.attr.value ++ "]")
  | some op =>
    match a.value with
    | none => Except.error CErr.noneTypeError
    | some v =>
      Except.ok ("[" ++ a.attr.value ++ op.value ++ attr_value_str v ++ "]")

/-- Source `PseudoClassNode.parse_css`. -/
def PseudoClassNode.parse_css (p : PseudoClassNode) : Except CErr String :=
  match mapE AttributeSelectorNode.parse_css p.attr_selector_nodes with
  | Except.error e => Except.error e
  | Except.ok attrs => Except.ok (":" ++ p.identifier.value ++ str_join attrs)

/-- Source `PseudoClassNode.parse_min_css`. -/
def PseudoClassNode.parse_min_css (p : PseudoClassNode) : Except CErr String :=
  match mapE AttributeSelectorNode.parse_min_css p.attr_selector_nodes with
  | Except.error e => Except.error e
  | Except.ok attrs => Except.ok (":" ++ p.identifier.value ++ str_join attrs)

/-- Source `PseudoElementNode.parse_css`. -/
def PseudoElementNode.parse_css (p : PseudoElementNode) : Except CErr String :=
  match mapE AttributeSelectorNode.parse_css p.attr_selector_nodes with
  | Except.error e => Except.error e
  | Except.ok attrs => Except.ok ("::" ++ p.identifier.value ++ str_join attrs)

/-- Source `PseudoElementNode.parse_min_css`. -/
def PseudoElementNode.parse_min_css (p : PseudoElementNode) : Except CErr String :=
  match mapE AttributeSelectorNode.parse_min_css p.attr_selector_nodes with
  | Except.error e => Except.error e
  | Except.ok attrs => Except.ok ("::" ++ p.identifier.value ++ str_join attrs)

/-- Source `SelectorSequenceNode.parse_css`: the raw token values followed by
attribute selectors, then pseudo classes. -/
def SelectorSequenceNode.parse_css (s : SelectorSequenceNode) : Except CErr String :=
  match mapE AttributeSelectorNode.parse_css s.attribute_selectors with
  | Except.error e => Except.error e
  | Except.ok attrs =>
    match mapE PseudoClassNode.parse_css s.pseudo_class_nodes with
    | Except.error e => Except.error e
    | Except.ok pseudos =>
      Except.ok (str_join (s.sequence.map Token.value) ++ str_join attrs ++ str_join pseudos)

/-- Source `SelectorSequenceNode.parse_min_css`. -/
def SelectorSequenceNode.parse_min_css (s : SelectorSequenceNode) : Except CErr String :=
  match mapE AttributeSelectorNode.parse_min_css s.attribute_selectors with
  | Except.error e => Except.error e
  | Except.ok attrs =>
    match mapE PseudoClassNode.parse_min_css s.pseudo_class_nodes with
    | Except.error e => Except.error e
    | Except.ok pseudos =>
      Except.ok (str_join (s.sequence.map Token.value) ++ str_join attrs ++ str_join pseudos)

/-- Source `SingleSelectorNode.parse_css`: optional leading combinator value, first
sequence, then each `(combinator, sequence)` pair — a `SPACE` combinator
renders as one space, any other as its glyph surrounded by spaces — and an
optional trailing pseudo element. -/
def SingleSelectorNode.parse_css (n : SingleSelectorNode) : Except CErr String :=
  let combinator := match n.parent_combinator with
    | some t => t.value
    | none => ""
  match n.first_selector_sequence_node.parse_css with
  | Except.error e => Except.error e
  | Except.ok first =>
    match mapE (fun pr =>
        match SelectorSequenceNode.parse_css pr.2 with
        | Except.error e => Except.error e
        | Except.ok s =>
          Except.ok ((if pr.1.type ≠ TokenType.SPACE then " " ++ pr.1.value ++ " " else " ") ++ s))
        n.combinator_selector_list with
    | Except.error e => Except.error e
    | Except.ok pairs =>
      match (match n.pseudo_element_node with
             | none => Except.ok ""
             | some pe => pe.parse_css) with
      | Except.error e => Except.error e
      | Except.ok pe_css => Except.ok (combinator ++ first ++ str_join pairs ++ pe_css)

/-- Source `SingleSelectorNode.parse_min_css`: every combinator renders as its raw
value with no surrounding spaces. -/
def SingleSelectorNode.parse_min_css (n : SingleSelectorNode) : Except CErr String :=
  let combinator := match n.parent_combinator with
    | some t => t.value
    | none => ""
  match n.first_selector_sequence_node.parse_min_css with
  | Except.error e => Except.error e
  | Except.ok first =>
    match mapE (fun pr =>
        match SelectorSequenceNode.parse_min_css pr.2 with
        | Except.error e => Except.error e
        | Except.ok s => Except.ok (pr.1.value ++ s))
        n.combinator_selector_list with
    | Except.error e => Except.error e
    | Except.ok pairs =>
      match (match n.pseudo_element_node with
             | none => Except.ok ""
             | some pe => pe.parse_min_css) with
      | Except.error e => Except.error e
      | Except.ok pe_css => Except.ok (combinator ++ first ++ str_join pairs ++ pe_css)

/-- The `space` computed in `SelectorNode.parse_list_css`:
`' ' if single_css[0] not in '+~>' else ''`; indexing an empty string is
Python's `IndexError`. -/
def first_char_space (single_css : String) : Except CErr String :=
  match single_css.data with
  | [] => Except.error CErr.indexError
  | c :: _ => Except.ok (if c = '+' ∨ c = '~' ∨ c = '>' then "" else " ")

/-- Source `SelectorNode.parse_list_css`: with no enclosing group, the group's own
single-selector strings; otherwise each enclosing expanded string (outer loop)
paired with each own single-selector string (inner loop), separated by the
`first_char_space` rule. -/
def SelectorNode.parse_list_css : SelectorNode → Except CErr (List String)
  | SelectorNode.mk singles none => mapE SingleSelectorNode.parse_css singles
  | SelectorNode.mk singles (some p) =>
    match SelectorNode.parse_list_css p with
    | Except.error e => Except.error e
    | Except.ok parent_list =>
      match mapE (fun parent_selector_string =>
          mapE (fun single =>
            match SingleSelectorNode.parse_css single with
            | Except.error e => Except.error e
            | Except.ok single_css =>
              match first_char_space single_css with
              | Except.error e => Except.error e
              | Except.ok space => Except.ok (parent_selector_string ++ space ++ single_css))
            singles) parent_list with
      | Except.error e => Except.error e
      | Except.ok combinations => Except.ok combinations.flatten

/-- Source `SelectorNode.parse_list_min_css`: same shape as `parse_list_css` with the
minified single-selector rendering (the separating-space rule is identical). -/
def SelectorNode.parse_list_min_css : SelectorNode → Except CErr (List String)
  | SelectorNode.mk singles none => mapE SingleSelectorNode.parse_min_css singles
  | SelectorNode.mk singles (some p) =>
    match SelectorNode.parse_list_min_css p with
    | Except.error e => Except.error e
    | Except.ok parent_list =>
      match mapE (fun parent_selector_string =>
          mapE (fun single =>
            match SingleSelectorNode.parse_min_css single with
            | Except.error e => Except.error e
            | Except.ok single_css =>
              match first_char_space single_css with
              | Except.error e => Except.error e
              | Except.ok space => Except.ok (parent_selector_string ++ space ++ single_css))
            singles) parent_list with
      | Except.error e => Except.error e
      | Except.ok combinations => Except.ok combinations.flatten

/-- Source `SelectorNode.parse_css`: the expanded list joined with `', '`
(in the order `parse_list_css` produced, not sorted). -/
def SelectorNode.parse_css (s : SelectorNode) : Except CErr String :=
  match s.parse_list_css with
  | Except.error e => Except.error e
  | Except.ok l => Except.ok (str_intercalate ", " l)

/-- Source `SelectorNode.parse_min_css`: the expanded list joined with `','`. -/
def SelectorNode.parse_min_css (s : SelectorNode) : Except CErr String :=
  match s.parse_list_min_css with
  | Except.error e => Except.error e
  | Except.ok l => Except.ok (str_intercalate "," l)

/-- Source `PropertyNode.parse_css`: two-space indent, `name: value`. -/
def PropertyNode.parse_css (p : PropertyNode) : String :=
  "  " ++ p.property_token.value ++ ": " ++ p.property_value_token.value

/-- Source `PropertyNode.parse_min_css`: `name:value`. -/
def PropertyNode.parse_min_css (p : PropertyNode) : String :=
  p.property_token.value ++ ":" ++ p.property_value_token.value

/-- Source `StyleBodyNode.parse_list_css`: the pretty renderings of the body's own
property declarations only — nested style children are not consulted. -/
def StyleBodyNode.parse_list_css (b : StyleBodyNode) : List String :=
  b.property_nodes.map PropertyNode.parse_css

/-- Source `StyleBodyNode.parse_list_min_css`. -/
def StyleBodyNode.parse_list_min_css (b : StyleBodyNode) : List String :=
  b.property_nodes.map PropertyNode.parse_min_css

/-- The mixin symbol table built by `Compiler._traverse`: name to definition,
in insertion order. -/
abbrev MixinTable := List (String × MixinDefNode)

/-- Source `Compiler.get_mixin`: dict lookup, `KeyError` when absent. -/
def get_mixin (tbl : MixinTable) (name : String) : Except CErr MixinDefNode :=
  match List.lookup name tbl with
  | some m => Except.ok m
  | none => Except.error (CErr.keyError name)

/-- Lines 46-49 of `StyleNode.parse_css`: the style's own property strings,
then for each `using` name in source order the referenced mixin body's own
property strings appended. -/
def style_props_css (tbl : MixinTable) (sbn : StyleBodyNode)
    (ml : Option IdentifierListNode) : Except CErr (List String) :=
  let properties := sbn.parse_list_css
  match ml with
  | none => Except.ok properties
  | some l =>
    foldE (fun props identifier =>
      match get_mixin tbl identifier.value with
      | Except.error e => Except.error e
      | Except.ok m => Except.ok (props ++ m.style_body_node.parse_list_css))
      properties l.identifiers

/-- Same accumulation for the minified rendering
(lines 60-63 of `StyleNode.parse_min_css`). -/
def style_props_min_css (tbl : MixinTable) (sbn : StyleBodyNode)
    (ml : Option IdentifierListNode) : Except CErr (List String) :=
  let properties := sbn.parse_list_min_css
  match ml with
  | none => Except.ok properties
  | some l =>
    foldE (fun props identifier =>
      match get_mixin tbl identifier.value with
      | Except.error e => Except.error e
      | Except.ok m => Except.ok (props ++ m.style_body_node.parse_list_min_css))
      properties l.identifiers

mutual
/-- Source `StyleNode.parse_css`: the selector, the sorted property block, then the
recursively emitted nested children; the block list (self first) is sorted and
joined with newlines. -/
def StyleNode.parse_css (tbl : MixinTable) : StyleNode → Except CErr String
  | StyleNode.mk selector_node (StyleBodyNode.mk props children) ml =>
    match selector_node.parse_css with
    | Except.error e => Except.error e
    | Except.ok selector =>
      match style_props_css tbl (StyleBodyNode.mk props children) ml with
      | Except.error e => Except.error e
      | Except.ok properties =>
        match style_children_css tbl children with
        | Except.error e => Except.error e
        | Except.ok child_css =>
          Except.ok (str_intercalate "\n" (sortStrings
            ((selector ++ (if properties = [] then " \x7b\x7d"
              else " \x7b\n" ++ str_intercalate ";\n" (sortStrings properties) ++ "\n\x7d"))
              :: child_css)))

/-- The child-emission loop of `StyleNode.parse_css`. -/
def style_children_css (tbl : MixinTable) : List StyleNode → Except CErr (List String)
  | [] => Except.ok []
  | s :: ss =>
    match StyleNode.parse_css tbl s with
    | Except.error e => Except.error e
    | Except.ok c =>
      match style_children_css tbl ss with
      | Except.error e => Except.error e
      | Except.ok cs => Except.ok (c :: cs)
end

mutual
/-- Source `StyleNode.parse_min_css`. -/
def StyleNode.parse_min_css (tbl : MixinTable) : StyleNode → Except CErr String
  | StyleNode.mk selector_node (StyleBodyNode.mk props children) ml =>
    match selector_node.parse_min_css with
    | Except.error e => Except.error e
    | Except.ok selector =>
      match style_props_min_css tbl (StyleBodyNode.mk props children) ml with
      | Except.error e => Except.error e
      | Except.ok properties =>
        match style_children_min_css tbl children with
        | Except.error e => Except.error e
        | Except.ok child_css =>
          Except.ok (str_join (sortStrings
            ((selector ++ (if properties = [] then "\x7b\x7d"
              else "\x7b" ++ str_intercalate ";" (sortStrings properties) ++ "\x7d"))
              :: child_css)))

/-- The child-emission loop of `StyleNode.parse_min_css`. -/
def style_children_min_css (tbl : MixinTable) : List StyleNode → Except CErr (List String)
  | [] => Except.ok []
  | s :: ss =>
    match StyleNode.parse_min_css tbl s with
    | Except.error e => Except.error e
    | Except.ok c =>
      match style_children_min_css tbl ss with
      | Except.error e => Except.error e
      | Except.ok cs => Except.ok (c :: cs)
end

/-- Source `RootNode.parse_css`: the style statements' renderings, sorted, joined
with newlines. -/
def RootNode.parse_css (tbl : MixinTable) (r : RootNode) : Except CErr String :=
  match mapE (StyleNode.parse_css tbl) (r.statements.filterMap Statement.as_css_node) with
  | Except.error e => Except.error e
  | Except.ok l => Except.ok (str_intercalate "\n" (sortStrings l))

/-- Source `RootNode.parse_min_css`: sorted, concatenated. -/
def RootNode.parse_min_css (tbl : MixinTable) (r : RootNode) : Except CErr String :=
  match mapE (StyleNode.parse_min_css tbl) (r.statements.filterMap Statement.as_css_node) with
  | Except.error e => Except.error e
  | Except.ok l => Except.ok (str_join (sortStrings l))

/-- The `Compiler` object of `superss/compiler.py`: the AST plus the two
symbol tables that live on the instance between calls. -/
structure Compiler where
  root_node : RootNode
  mixin_table : MixinTable := []
  alias_table : List (String × AliasDefNode) := []

/-- One step of `Compiler._traverse`: record a mixin or alias definition,
raising `ValueError` on a name already present. -/
def trav_step (acc : Compiler) (statement : Statement) : Except CErr Compiler :=
  match statement with
  | Statement.mixin_def m =>
    if (List.lookup m.symbol.value acc.mixin_table).isSome then
      Except.error (CErr.duplicateSymbol m.symbol)
    else
      Except.ok { acc with mixin_table := acc.mixin_table ++ [(m.symbol.value, m)] }
  | Statement.alias_def a =>
    if (List.lookup a.symbol.value acc.alias_table).isSome then
      Except.error (CErr.duplicateSymbol a.symbol)
    else
      Except.ok { acc with alias_table := acc.alias_table ++ [(a.symbol.value, a)] }
  | Statement.style _ => Except.ok acc

/-- Source `Compiler._traverse` (pass 1): reset both tables, then scan the root's
statements once. -/
def Compiler.traverse (c : Compiler) : Except CErr Compiler :=
  foldE trav_step { c with mixin_table := [], alias_table := [] } c.root_node.statements

/-- Source `Compiler.compile_css`: pass 1 then emission in the requested mode; the
output string is produced only when the whole computation succeeds. -/
def compile_css (c : Compiler) (minified : Bool) : Except CErr (String × Compiler) :=
  match c.traverse with
  | Except.error e => Except.error e
  | Except.ok c2 =>
    match (if minified then RootNode.parse_min_css c2.mixin_table c2.root_node
           else RootNode.parse_css c2.mixin_table c2.root_node) with
    | Except.error e => Except.error e
    | Except.ok s => Except.ok (s, c2)

/-! ## Lexer (`superss/lexer.py`) -/

/-- The two fixed vocabulary sets the lexer consults.
Modelled from the spec: the known-HTML-element-name and known-CSS-property-name
lists are loaded from resource data files that are not part of `src/superss`
(`util.load_html_elements` / `util.load_css_properties`); the lexer only
performs membership queries on them, so they are parameters here. -/
structure LexCfg where
  elements : List String
  properties : List String

/-- The mutable scanning state of the `Lexer` object: remaining input is
`text` with cursor `index`, plus the position counters and the tokens
accumulated so far. -/
structure LexState where
  text : List Char
  index : Nat
  line : Nat
  column : Nat
  tokens : List Token

/-- First half of `Lexer._advance`: on a newline bump `line` and reset
`column`, then move `index`. -/
def lex_moved (st : LexState) : LexState :=
  if st.text.get? st.index = some '\n' then
    { st with line := st.line + 1, column := 0, index := st.index + 1 }
  else
    { st with index := st.index + 1 }

/-- Source `Lexer._advance`: move the cursor, bumping `column` only while the new
index is still inside the text. -/
def lex_advance (st : LexState) : LexState :=
  if (lex_moved st).index < (lex_moved st).text.length then
    { lex_moved st with column := (lex_moved st).column + 1 }
  else lex_moved st

theorem lex_moved_text (st : LexState) : (lex_moved st).text = st.text := by
  unfold lex_moved
  split <;> rfl

theorem lex_moved_index (st : LexState) : (lex_moved st).index = st.index + 1 := by
  unfold lex_moved
  split <;> rfl

theorem lex_moved_tokens (st : LexState) : (lex_moved st).tokens = st.tokens := by
  unfold lex_moved
  split <;> rfl

theorem lex_advance_text (st : LexState) : (lex_advance st).text = st.text := by
  unfold lex_advance
  split <;> simp [lex_moved_text]

theorem lex_advance_index (st : LexState) : (lex_advance st).index = st.index + 1 := by
  unfold lex_advance
  split <;> simp [lex_moved_index]

theorem lex_advance_tokens (st : LexState) : (lex_advance st).tokens = st.tokens := by
  unfold lex_advance
  split <;> simp [lex_moved_tokens]

/-- Source `is_identifier_start` from `superss/lexer.py` (ASCII reading of Python's
`isalpha`). -/
def is_identifier_start (c : Char) : Bool :=
  c.isAlpha ∨ c = '_' ∨ c = '-'

/-- Source `is_identifier` from `superss/lexer.py` (ASCII reading of `isalnum`). -/
def is_identifier (c : Char) : Bool :=
  c.isAlphanum ∨ c = '_' ∨ c = '-'

/-- Source `is_string_start` from `superss/lexer.py`. -/
def is_string_start (c : Char) : Bool :=
  c = '"' ∨ c = '\''

/-- The whitespace-consuming loop inside `Lexer._skip_space`. Each pass
consumes one character, so the structural fuel — always instantiated with
`text.length + 1`, strictly more than the characters left — never runs out;
the fuel-zero branch is dead. -/
def ws_run : Nat → LexState → LexState
  | 0, st => st
  | fuel + 1, st =>
    match st.text.get? st.index with
    | some c => if c.isWhitespace then ws_run fuel (lex_advance st) else st
    | none => st

/-- Source `Lexer._skip_space`: emit one `SPACE` token (only when a token already
exists), then consume the whitespace run. -/
def skip_space (st : LexState) : LexState :=
  let st1 :=
    if st.tokens.length ≠ 0 then
      { st with tokens := st.tokens ++
          [{ type := TokenType.SPACE, value := " ", line := some st.line, column := some st.column }] }
    else st
  ws_run (st1.text.length + 1) st1

/-- The identifier-consuming loop inside `Lexer._make_identifier`,
returning the consumed characters (fuel as in `ws_run`). -/
def ident_run : Nat → LexState → List Char → List Char × LexState
  | 0, st, acc => (acc, st)
  | fuel + 1, st, acc =>
    match st.text.get? st.index with
    | some c =>
      if is_identifier c then ident_run fuel (lex_advance st) (acc ++ [c])
      else (acc, st)
    | none => (acc, st)

/-- Python `str.lower` on the code points (ASCII case fold). -/
def lower_str (s : String) : String :=
  String.mk (s.data.map Char.toLower)

/-- The keyword table `KEYWORDS` from `superss/lexer.py`. -/
def keyword_type (value : String) : Option TokenType :=
  if value = "using" then some TokenType.USING
  else if value = "mixin" then some TokenType.MIXIN
  else if value = "alias" then some TokenType.ALIAS
  else if value = "as" then some TokenType.AS
  else none

/-- Source `Lexer._make_identifier`: consume an identifier run and classify it, in
order: known HTML element (lowercased), known CSS property (lowercased),
reserved keyword, plain identifier. The token carries the start position. -/
def make_identifier (cfg : LexCfg) (st : LexState) : LexState :=
  let start_line := st.line
  let start_column := st.column
  let run := ident_run (st.text.length + 1) st []
  let value := String.mk run.1
  let st2 := run.2
  let tok :=
    if cfg.elements.contains value then
      { type := TokenType.HTML_ELEMENT, value := lower_str value,
        line := some start_line, column := some start_column : Token }
    else if cfg.properties.contains value then
      { type := TokenType.CSS_PROPERTY, value := lower_str value,
        line := some start_line, column := some start_column : Token }
    else
      match keyword_type value with
      | some k => { type := k, value := value,
                    line := some start_line, column := some start_column : Token }
      | none => { type := TokenType.IDENTIFIER, value := value,
                  line := some start_line, column := some start_column : Token }
  { st2 with tokens := st2.tokens ++ [tok] }

/-- Python `str.strip(c)`: remove every leading and trailing occurrence of a
single character. -/
def strip_char (c : Char) (s : String) : String :=
  String.mk (((s.data.dropWhile (fun x => x = c)).reverse.dropWhile (fun x => x = c)).reverse)

/-- The scanning loop inside `Lexer._make_string`: consume characters until
the closing quote; reaching end of input raises a bare `SyntaxError` — note
that the raise carries no argument, so the error value holds no position
(fuel as in `ws_run`: the zero branch is dead at every call site). -/
def string_run (closing : Char) : Nat → LexState → List Char →
    Except Unit (List Char × LexState)
  | 0, st, acc => Except.ok (acc, st)
  | fuel + 1, st, acc =>
    match st.text.get? st.index with
    | some c =>
      if c = closing then Except.ok (acc, st)
      else string_run closing fuel (lex_advance st) (acc ++ [c])
    | none => Except.error ()

/-- Source `Lexer._make_string`: scan a quoted literal; the resulting `STRING`
token's value is stripped of the quote character and its recorded position is
the lexer position after the literal (as in the source). -/
def make_string (st : LexState) : Except Unit LexState :=
  match st.text.get? st.index with
  | none => Except.error ()
  | some closing =>
    match string_run closing (st.text.length + 1) (lex_advance st) [closing] with
    | Except.error e => Except.error e
    | Except.ok (value, st2) =>
      let st3 := lex_advance st2
      Except.ok { st3 with tokens := st3.tokens ++
        [{ type := TokenType.STRING, value := strip_char closing (String.mk value),
           line := some st3.line, column := some st3.column }] }

/-- The value-consuming loop inside `Lexer._make_css_property_value`:
raw characters up to (not including) `;`, `}` or a newline
(fuel as in `ws_run`). -/
def cpv_run : Nat → LexState → List Char → List Char × LexState
  | 0, st, acc => (acc, st)
  | fuel + 1, st, acc =>
    match st.text.get? st.index with
    | some c =>
      if c ≠ ';' ∧ c ≠ '\x7d' ∧ c ≠ '\n' then cpv_run fuel (lex_advance st) (acc ++ [c])
      else (acc, st)
    | none => (acc, st)

/-- Python `str.strip()`: remove leading and trailing whitespace. -/
def strip_ws_ends (s : String) : String :=
  String.mk (((s.data.dropWhile Char.isWhitespace).reverse.dropWhile Char.isWhitespace).reverse)

/-- Source `Lexer._make_css_property_value`: consume the raw value, step `index`
back by one (without touching `line`/`column`, as in the source), and emit
the trimmed `CSS_PROPERTY_VALUE` token at the current end position. -/
def make_css_property_value (st : LexState) : LexState :=
  let run := cpv_run (st.text.length + 1) st []
  let st2 := { run.2 with index := run.2.index - 1 }
  { st2 with tokens := st2.tokens ++
    [{ type := TokenType.CSS_PROPERTY_VALUE, value := strip_ws_ends (String.mk run.1),
       line := some st2.line, column := some st2.column }] }

/-- Append a single-character (or two-character) token at the current
position. -/
def push_tok (st : LexState) (ty : TokenType) (v : String) : LexState :=
  { st with tokens := st.tokens ++ [{ type := ty, value := v, line := some st.line, column := some st.column }] }

/-- Source `Lexer.last_token()`: the most recently emitted token, if any. -/
def last_token (st : LexState) : Option Token :=
  st.tokens.getLast?

/-- The `elif` chain of `Lexer._parse_next_token` for punctuation: greedy
two-character operators first, then single-character tokens, then the special
`CSS_PROPERTY_VALUE` mode after a `:` that follows a `CSS_PROPERTY`; a
character matching no branch changes nothing (it is silently consumed by the
caller's advance). The caller performs the trailing `self._advance()`. -/
def scan_punct (st : LexState) (c : Char) : LexState :=
  let next := st.text.get? (st.index + 1)
  if c = '~' ∧ next = some '=' then lex_advance (push_tok st TokenType.ATTR_CONTAINS_WORD "~=")
  else if c = '*' ∧ next = some '=' then lex_advance (push_tok st TokenType.ATTR_CONTAINS "*=")
  else if c = '|' ∧ next = some '=' then lex_advance (push_tok st TokenType.ATTR_STARTS_WITH_WORD "|=")
  else if c = '^' ∧ next = some '=' then lex_advance (push_tok st TokenType.ATTR_STARTS_WITH "^=")
  else if c = '$' ∧ next = some '=' then lex_advance (push_tok st TokenType.ATTR_ENDS_WITH "$=")
  else if c = ':' ∧ next = some ':' then lex_advance (push_tok st TokenType.PSEUDO_ELEMENT "::")
  else if c = ',' then push_tok st TokenType.COMMA ","
  else if c = '.' then push_tok st TokenType.CLASS_PREF "."
  else if c = '#' then push_tok st TokenType.ID_PREF "#"
  else if c = '*' then push_tok st TokenType.STAR "*"
  else if c = '+' then push_tok st TokenType.AFTER "+"
  else if c = '~' then push_tok st TokenType.BEFORE "~"
  else if c = '>' then push_tok st TokenType.CHILD ">"
  else if c = ':' then
    let is_css_prop_value : Bool := match last_token st with
      | some t => t.type = TokenType.CSS_PROPERTY
      | none => false
    let st1 := push_tok st TokenType.SINGLE_COLON ":"
    if is_css_prop_value then make_css_property_value (lex_advance st1) else st1
  else if c = '=' then push_tok st TokenType.ATTR_EQUALS "="
  else if c = ';' then push_tok st TokenType.LINE_END ";"
  else if c = '(' then push_tok st TokenType.PAREN_L "("
  else if c = ')' then push_tok st TokenType.PAREN_R ")"
  else if c = '\x7b' then push_tok st TokenType.CURLY_L "\x7b"
  else if c = '\x7d' then push_tok st TokenType.CURLY_R "\x7d"
  else if c = '[' then push_tok st TokenType.SQUARE_L "["
  else if c = ']' then push_tok st TokenType.SQUARE_R "]"
  else st

/-- One iteration of the `while self.current_char is not None` loop of
`Lexer._parse_next_token`: whitespace, identifiers and strings use
`continue`; every other character goes through the punctuation chain followed
by the loop-trailing `self._advance()`. -/
def scan_step (cfg : LexCfg) (st : LexState) : Except Unit LexState :=
  match st.text.get? st.index with
  | none => Except.ok st
  | some c =>
    if c.isWhitespace then Except.ok (skip_space st)
    else if is_identifier_start c then Except.ok (make_identifier cfg st)
    else if is_string_start c then make_string st
    else Except.ok (lex_advance (scan_punct st c))

/-- The full scanning loop of `Lexer._parse_next_token`, driven by explicit
fuel; when the text is exhausted the `EOF` token (value `None`, no position)
is appended. -/
def scan_run (cfg : LexCfg) : Nat → LexState → Option (Except Unit LexState)
  | 0, _ => none
  | fuel + 1, st =>
    match st.text.get? st.index with
    | none => some (Except.ok { st with tokens := st.tokens ++
        [{ type := TokenType.EOF, value := "" }] })
    | some _ =>
      match scan_step cfg st with
      | Except.error e => some (Except.error e)
      | Except.ok st2 => scan_run cfg fuel st2

/-- The `SPACE`-filtering pass at the end of `Lexer._parse_tokens`: walk the
token list by index; a `SPACE` token survives only when its left neighbour
can end a compound selector and its right neighbour can start one; other
tokens survive subject to `keep_eof`. Reading `tokens[i + 1]` past the end is
Python's `IndexError`, modelled as `none`. -/
def clean_tokens (keep_eof : Bool) (ts : List Token) : Option (List Token) :=
  (List.range ts.length).foldlM (fun cleaned i =>
    match ts.get? i with
    | none => none
    | some current =>
      if current.type = TokenType.SPACE then
        if 0 < i ∧ i < ts.length then
          match ts.get? (i - 1), ts.get? (i + 1) with
          | some left, some right =>
            if (left.type = TokenType.HTML_ELEMENT ∨ left.type = TokenType.IDENTIFIER ∨
                left.type = TokenType.STAR ∨ left.type = TokenType.SQUARE_R)
               ∧ (right.type = TokenType.CLASS_PREF ∨ right.type = TokenType.ID_PREF ∨
                  right.type = TokenType.HTML_ELEMENT ∨ right.type = TokenType.STAR) then
              some (cleaned ++ [current])
            else some cleaned
          | some _, none => none
          | none, _ => none
        else some cleaned
      else if keep_eof ∨ current.type ≠ TokenType.EOF then some (cleaned ++ [current])
      else some cleaned) []

/-- Outcome of constructing a `Lexer`. -/
inductive LexOutcome where
  | ok (tokens : List Token)
  | stringError
  | cleanError
  | outOfFuel
  deriving DecidableEq, Repr

/-- Source `Lexer.__init__` + `_parse_tokens`: scan the whole text (each step
consumes at least one character, so `length + 1` fuel always suffices), then
apply the `SPACE`/`EOF` filtering. A bare `SyntaxError` from string scanning
is `stringError` — it carries no source position. -/
def lexer_tokens (cfg : LexCfg) (keep_eof : Bool) (text : String) : LexOutcome :=
  match scan_run cfg (text.data.length + 1)
      { text := text.data, index := 0, line := 0, column := 0, tokens := [] } with
  | none => LexOutcome.outOfFuel
  | some (Except.error _) => LexOutcome.stringError
  | some (Except.ok st) =>
    match clean_tokens keep_eof st.tokens with
    | none => LexOutcome.cleanError
    | some ts => LexOutcome.ok ts

/-! ## Parser (`superss/parser.py`)

Recursive-descent with one-token lookahead over a fixed token list; the
cursor is the index `i`. Loops and recursion are driven by explicit fuel:
`PRes.spin` means the fuel ran out, i.e. the run was still going — a
computation that spins for every fuel value never terminates. -/

/-- Parse-time failures: `unexpected` is the `ValueError` raised by
`Parser._type_check_and_advance` (expected kind(s) plus the actual token),
`noneType` is the `AttributeError` from reading `.type` of a `None`
current token (possible only when the token list is not EOF-terminated). -/
inductive PErr where
  | unexpected (expected : List TokenType) (got : Token)
  | noneType
  deriving DecidableEq, Repr

/-- Result of a parser step: a value with the next cursor index, an error,
or fuel exhaustion. -/
inductive PRes (α : Type) where
  | ok (a : α) (next : Nat)
  | err (e : PErr)
  | spin

/-- Source `Parser._type_check_and_advance`: `none` advances unconditionally;
otherwise the current token's kind must be among the expected kinds. -/
def p_expect (tokens : List Token) (i : Nat) (expected : Option (List TokenType)) : PRes Unit :=
  match expected with
  | none => PRes.ok () (i + 1)
  | some tys =>
    match tokens.get? i with
    | none => PRes.err PErr.noneType
    | some t => if t.type ∈ tys then PRes.ok () (i + 1) else PRes.err (PErr.unexpected tys t)

mutual

/-- The `while self.current_token.type != TokenType.EOF` loop of
`Parser._make_root`; a token matching no branch is neither consumed nor
reported, so the loop repeats on the same index. -/
def p_root_loop (tokens : List Token) : Nat → List Statement → Nat → PRes (List Statement)
  | 0, _, _ => PRes.spin
  | fuel + 1, stmts, i =>
    match tokens.get? i with
    | none => PRes.err PErr.noneType
    | some t =>
      if t.type = TokenType.EOF then PRes.ok stmts i
      else if t.type ∈ STYLE_BEGIN ++ [TokenType.SQUARE_L, TokenType.SINGLE_COLON] then
        match p_make_style tokens fuel none i with
        | PRes.ok s i2 => p_root_loop tokens fuel (stmts ++ [Statement.style s]) i2
        | PRes.err e => PRes.err e
        | PRes.spin => PRes.spin
      else if t.type = TokenType.MIXIN then
        match p_make_mixin_def tokens fuel i with
        | PRes.ok m i2 => p_root_loop tokens fuel (stmts ++ [Statement.mixin_def m]) i2
        | PRes.err e => PRes.err e
        | PRes.spin => PRes.spin
      else if t.type = TokenType.ALIAS then
        match p_make_alias_def tokens fuel i with
        | PRes.ok a i2 => p_root_loop tokens fuel (stmts ++ [Statement.alias_def a]) i2
        | PRes.err e => PRes.err e
        | PRes.spin => PRes.spin
      else p_root_loop tokens fuel stmts i

/-- Source `Parser._make_alias_def`. -/
def p_make_alias_def (tokens : List Token) : Nat → Nat → PRes AliasDefNode
  | 0, _ => PRes.spin
  | fuel + 1, i =>
    match p_expect tokens i (some [TokenType.ALIAS]) with
    | PRes.err e => PRes.err e
    | PRes.spin => PRes.spin
    | PRes.ok _ i2 =>
      match tokens.get? i2 with
      | none =>
        match p_expect tokens i2 (some IDENTIFIERS) with
        | PRes.err e => PRes.err e
        | _ => PRes.err PErr.noneType
      | some symbol =>
        match p_expect tokens i2 (some IDENTIFIERS) with
        | PRes.err e => PRes.err e
        | PRes.spin => PRes.spin
        | PRes.ok _ i3 =>
          match p_expect tokens i3 (some [TokenType.AS]) with
          | PRes.err e => PRes.err e
          | PRes.spin => PRes.spin
          | PRes.ok _ i4 =>
            match p_make_selector_node tokens fuel none i4 with
            | PRes.err e => PRes.err e
            | PRes.spin => PRes.spin
            | PRes.ok sel i5 => PRes.ok (AliasDefNode.mk symbol (some sel)) i5

/-- Source `Parser._make_mixin_def`: unconditional advance past `mixin`, the symbol
token, then the style body (with no enclosing selector). -/
def p_make_mixin_def (tokens : List Token) : Nat → Nat → PRes MixinDefNode
  | 0, _ => PRes.spin
  | fuel + 1, i =>
    let i2 := i + 1
    match tokens.get? i2 with
    | none =>
      match p_expect tokens i2 (some IDENTIFIERS) with
      | PRes.err e => PRes.err e
      | _ => PRes.err PErr.noneType
    | some symbol =>
      match p_expect tokens i2 (some IDENTIFIERS) with
      | PRes.err e => PRes.err e
      | PRes.spin => PRes.spin
      | PRes.ok _ i3 =>
        match p_make_style_body tokens fuel none i3 with
        | PRes.err e => PRes.err e
        | PRes.spin => PRes.spin
        | PRes.ok body i4 => PRes.ok (MixinDefNode.mk symbol body) i4

/-- Source `Parser._make_style`: selector group, optional `using` list, body. -/
def p_make_style (tokens : List Token) : Nat → Option SelectorNode → Nat → PRes StyleNode
  | 0, _, _ => PRes.spin
  | fuel + 1, parent_selector, i =>
    match p_make_selector_node tokens fuel parent_selector i with
    | PRes.err e => PRes.err e
    | PRes.spin => PRes.spin
    | PRes.ok selector_node i2 =>
      match tokens.get? i2 with
      | none => PRes.err PErr.noneType
      | some t =>
        if t.type = TokenType.USING then
          match p_make_identifier_list_node tokens fuel (i2 + 1) with
          | PRes.err e => PRes.err e
          | PRes.spin => PRes.spin
          | PRes.ok ml i3 =>
            match p_make_style_body tokens fuel (some selector_node) i3 with
            | PRes.err e => PRes.err e
            | PRes.spin => PRes.spin
            | PRes.ok body i4 =>
              PRes.ok (StyleNode.mk selector_node body (some ml)) i4
        else
          match p_make_style_body tokens fuel (some selector_node) i2 with
          | PRes.err e => PRes.err e
          | PRes.spin => PRes.spin
          | PRes.ok body i3 =>
            PRes.ok (StyleNode.mk selector_node body none) i3

/-- Source `Parser._make_style_body`: expect `{`, run the body loop, expect `}`. -/
def p_make_style_body (tokens : List Token) : Nat → Option SelectorNode → Nat → PRes StyleBodyNode
  | 0, _, _ => PRes.spin
  | fuel + 1, selector, i =>
    match p_expect tokens i (some [TokenType.CURLY_L]) with
    | PRes.err e => PRes.err e
    | PRes.spin => PRes.spin
    | PRes.ok _ i2 =>
      match p_body_loop tokens fuel selector [] [] i2 with
      | PRes.err e => PRes.err e
      | PRes.spin => PRes.spin
      | PRes.ok body i3 =>
        match p_expect tokens i3 (some [TokenType.CURLY_R]) with
        | PRes.err e => PRes.err e
        | PRes.spin => PRes.spin
        | PRes.ok _ i4 => PRes.ok body i4

/-- The `while self.current_token.type != TokenType.CURLY_R` loop of
`Parser._make_style_body`; a token matching no branch (for instance `EOF`)
is neither consumed nor reported, so the loop repeats on the same index. -/
def p_body_loop (tokens : List Token) :
    Nat → Option SelectorNode → List PropertyNode → List StyleNode → Nat → PRes StyleBodyNode
  | 0, _, _, _, _ => PRes.spin
  | fuel + 1, selector, props, children, i =>
    match tokens.get? i with
    | none => PRes.err PErr.noneType
    | some t =>
      if t.type = TokenType.CURLY_R then PRes.ok (StyleBodyNode.mk props children) i
      else if t.type = TokenType.CSS_PROPERTY then
        match p_make_property_node tokens fuel i with
        | PRes.err e => PRes.err e
        | PRes.spin => PRes.spin
        | PRes.ok p i2 => p_body_loop tokens fuel selector (props ++ [p]) children i2
      else if t.type ∈ COMBINATORS then
        match p_make_style tokens fuel selector i with
        | PRes.err e => PRes.err e
        | PRes.spin => PRes.spin
        | PRes.ok s i2 => p_body_loop tokens fuel selector props (children ++ [s]) i2
      else if t.type ∈ STYLE_BEGIN then
        match p_make_style tokens fuel selector i with
        | PRes.err e => PRes.err e
        | PRes.spin => PRes.spin
        | PRes.ok s i2 => p_body_loop tokens fuel selector props (children ++ [s]) i2
      else p_body_loop tokens fuel selector props children i

/-- Source `Parser._make_property_node`: `CSS_PROPERTY ':' CSS_PROPERTY_VALUE ';'`. -/
def p_make_property_node (tokens : List Token) : Nat → Nat → PRes PropertyNode
  | 0, _ => PRes.spin
  | _ + 1, i =>
    match tokens.get? i with
    | none => PRes.err PErr.noneType
    | some prop =>
      match p_expect tokens i (some [TokenType.CSS_PROPERTY]) with
      | PRes.err e => PRes.err e
      | PRes.spin => PRes.spin
      | PRes.ok _ i2 =>
        match p_expect tokens i2 (some [TokenType.SINGLE_COLON]) with
        | PRes.err e => PRes.err e
        | PRes.spin => PRes.spin
        | PRes.ok _ i3 =>
          match tokens.get? i3 with
          | none => PRes.err PErr.noneType
          | some prop_val =>
            match p_expect tokens i3 (some [TokenType.CSS_PROPERTY_VALUE]) with
            | PRes.err e => PRes.err e
            | PRes.spin => PRes.spin
            | PRes.ok _ i4 =>
              match p_expect tokens i4 (some [TokenType.LINE_END]) with
              | PRes.err e => PRes.err e
              | PRes.spin => PRes.spin
              | PRes.ok _ i5 => PRes.ok (PropertyNode.mk prop prop_val) i5

/-- Source `Parser._make_selector_node`: single selectors separated by commas,
recording (not resolving) the enclosing group. -/
def p_make_selector_node (tokens : List Token) : Nat → Option SelectorNode → Nat → PRes SelectorNode
  | 0, _, _ => PRes.spin
  | fuel + 1, parent_selector, i =>
    match p_make_single_selector_node tokens fuel i with
    | PRes.err e => PRes.err e
    | PRes.spin => PRes.spin
    | PRes.ok s i2 =>
      match p_comma_loop tokens fuel [s] i2 with
      | PRes.err e => PRes.err e
      | PRes.spin => PRes.spin
      | PRes.ok singles i3 => PRes.ok (SelectorNode.mk singles parent_selector) i3

/-- The comma loop of `Parser._make_selector_node`. -/
def p_comma_loop (tokens : List Token) : Nat → List SingleSelectorNode → Nat → PRes (List SingleSelectorNode)
  | 0, _, _ => PRes.spin
  | fuel + 1, acc, i =>
    match tokens.get? i with
    | none => PRes.err PErr.noneType
    | some t =>
      if t.type = TokenType.COMMA then
        match p_make_single_selector_node tokens fuel (i + 1) with
        | PRes.err e => PRes.err e
        | PRes.spin => PRes.spin
        | PRes.ok s i2 => p_comma_loop tokens fuel (acc ++ [s]) i2
      else PRes.ok acc i

/-- Source `Parser._make_single_selector_node`: optional leading combinator, first
sequence, `(combinator, sequence)*`, optional pseudo element. -/
def p_make_single_selector_node (tokens : List Token) : Nat → Nat → PRes SingleSelectorNode
  | 0, _ => PRes.spin
  | fuel + 1, i =>
    match tokens.get? i with
    | none => PRes.err PErr.noneType
    | some t =>
      let lead : Option Token × Nat :=
        if t.type ∈ COMBINATORS then (some t, i + 1) else (none, i)
      match p_make_selector_sequence_node tokens fuel lead.2 with
      | PRes.err e => PRes.err e
      | PRes.spin => PRes.spin
      | PRes.ok first i2 =>
        match p_pairs_loop tokens fuel [] i2 with
        | PRes.err e => PRes.err e
        | PRes.spin => PRes.spin
        | PRes.ok pairs i3 =>
          match tokens.get? i3 with
          | none => PRes.err PErr.noneType
          | some t2 =>
            if t2.type = TokenType.PSEUDO_ELEMENT then
              match p_make_pseudo_element_node tokens fuel i3 with
              | PRes.err e => PRes.err e
              | PRes.spin => PRes.spin
              | PRes.ok pe i4 =>
                PRes.ok (SingleSelectorNode.mk first pairs lead.1 (some pe)) i4
            else PRes.ok (SingleSelectorNode.mk first pairs lead.1 none) i3

/-- The `(combinator, sequence)` loop of `Parser._make_single_selector_node`:
repeats while the current token is a combinator or a retained `SPACE`. -/
def p_pairs_loop (tokens : List Token) :
    Nat → List (Token × SelectorSequenceNode) → Nat → PRes (List (Token × SelectorSequenceNode))
  | 0, _, _ => PRes.spin
  | fuel + 1, acc, i =>
    match tokens.get? i with
    | none => PRes.err PErr.noneType
    | some t =>
      if t.type ∈ COMBINATORS ++ [TokenType.SPACE] then
        match p_make_selector_sequence_node tokens fuel (i + 1) with
        | PRes.err e => PRes.err e
        | PRes.spin => PRes.spin
        | PRes.ok sq i2 => p_pairs_loop tokens fuel (acc ++ [(t, sq)]) i2
      else PRes.ok acc i

/-- Source `Parser._make_selector_sequence_node`: a run of selector tokens, then
attribute selectors, then pseudo classes. -/
def p_make_selector_sequence_node (tokens : List Token) : Nat → Nat → PRes SelectorSequenceNode
  | 0, _ => PRes.spin
  | fuel + 1, i =>
    match p_seq_token_loop tokens fuel [] i with
    | PRes.err e => PRes.err e
    | PRes.spin => PRes.spin
    | PRes.ok toks i2 =>
      match p_attr_loop tokens fuel [] i2 with
      | PRes.err e => PRes.err e
      | PRes.spin => PRes.spin
      | PRes.ok attrs i3 =>
        match p_pc_loop tokens fuel [] i3 with
        | PRes.err e => PRes.err e
        | PRes.spin => PRes.spin
        | PRes.ok pcs i4 => PRes.ok (SelectorSequenceNode.mk toks attrs pcs) i4

/-- The selector-token run of `Parser._make_selector_sequence_node`. -/
def p_seq_token_loop (tokens : List Token) : Nat → List Token → Nat → PRes (List Token)
  | 0, _, _ => PRes.spin
  | fuel + 1, acc, i =>
    match tokens.get? i with
    | none => PRes.err PErr.noneType
    | some t =>
      if t.type ∈ STYLE_BEGIN ++ IDENTIFIERS then
        p_seq_token_loop tokens fuel (acc ++ [t]) (i + 1)
      else PRes.ok acc i

/-- The attribute-selector run of `Parser._make_selector_sequence_node`. -/
def p_attr_loop (tokens : List Token) : Nat → List AttributeSelectorNode → Nat → PRes (List AttributeSelectorNode)
  | 0, _, _ => PRes.spin
  | fuel + 1, acc, i =>
    match tokens.get? i with
    | none => PRes.err PErr.noneType
    | some t =>
      if t.type = TokenType.SQUARE_L then
        match p_make_attribute_selector_node tokens fuel i with
        | PRes.err e => PRes.err e
        | PRes.spin => PRes.spin
        | PRes.ok a i2 => p_attr_loop tokens fuel (acc ++ [a]) i2
      else PRes.ok acc i

/-- The pseudo-class run of `Parser._make_selector_sequence_node`. -/
def p_pc_loop (tokens : List Token) : Nat → List PseudoClassNode → Nat → PRes (List PseudoClassNode)
  | 0, _, _ => PRes.spin
  | fuel + 1, acc, i =>
    match tokens.get? i with
    | none => PRes.err PErr.noneType
    | some t =>
      if t.type = TokenType.SINGLE_COLON then
        match p_make_pseudo_class_node tokens fuel i with
        | PRes.err e => PRes.err e
        | PRes.spin => PRes.spin
        | PRes.ok p i2 => p_pc_loop tokens fuel (acc ++ [p]) i2
      else PRes.ok acc i

/-- Source `Parser._make_attribute_selector_node`:
`'[' IDENTIFIER (op (STRING|IDENTIFIER))? ']'`. -/
def p_make_attribute_selector_node (tokens : List Token) : Nat → Nat → PRes AttributeSelectorNode
  | 0, _ => PRes.spin
  | _ + 1, i =>
    match p_expect tokens i (some [TokenType.SQUARE_L]) with
    | PRes.err e => PRes.err e
    | PRes.spin => PRes.spin
    | PRes.ok _ i2 =>
      match tokens.get? i2 with
      | none => PRes.err PErr.noneType
      | some attr_tok =>
        match p_expect tokens i2 (some [TokenType.IDENTIFIER]) with
        | PRes.err e => PRes.err e
        | PRes.spin => PRes.spin
        | PRes.ok _ i3 =>
          match tokens.get? i3 with
          | none => PRes.err PErr.noneType
          | some t3 =>
            if t3.type ∈ ATTRIBUTE_OPERATORS then
              match tokens.get? (i3 + 1) with
              | none =>
                match p_expect tokens (i3 + 1) (some [TokenType.STRING, TokenType.IDENTIFIER]) with
                | PRes.err e => PRes.err e
                | _ => PRes.err PErr.noneType
              | some val_tok =>
                match p_expect tokens (i3 + 1) (some [TokenType.STRING, TokenType.IDENTIFIER]) with
                | PRes.err e => PRes.err e
                | PRes.spin => PRes.spin
                | PRes.ok _ i4 =>
                  match p_expect tokens i4 (some [TokenType.SQUARE_R]) with
                  | PRes.err e => PRes.err e
                  | PRes.spin => PRes.spin
                  | PRes.ok _ i5 =>
                    PRes.ok (AttributeSelectorNode.mk attr_tok (some t3) (some val_tok)) i5
            else
              match p_expect tokens i3 (some [TokenType.SQUARE_R]) with
              | PRes.err e => PRes.err e
              | PRes.spin => PRes.spin
              | PRes.ok _ i4 => PRes.ok (AttributeSelectorNode.mk attr_tok none none) i4

/-- Source `Parser._make_pseudo_class_node`: `':' IDENTIFIER attr_selector?`. -/
def p_make_pseudo_class_node (tokens : List Token) : Nat → Nat → PRes PseudoClassNode
  | 0, _ => PRes.spin
  | fuel + 1, i =>
    match p_expect tokens i (some [TokenType.SINGLE_COLON]) with
    | PRes.err e => PRes.err e
    | PRes.spin => PRes.spin
    | PRes.ok _ i2 =>
      match tokens.get? i2 with
      | none => PRes.err PErr.noneType
      | some identifier =>
        match p_expect tokens i2 (some [TokenType.IDENTIFIER]) with
        | PRes.err e => PRes.err e
        | PRes.spin => PRes.spin
        | PRes.ok _ i3 =>
          match tokens.get? i3 with
          | none => PRes.err PErr.noneType
          | some t3 =>
            if t3.type = TokenType.SQUARE_L then
              match p_make_attribute_selector_node tokens fuel i3 with
              | PRes.err e => PRes.err e
              | PRes.spin => PRes.spin
              | PRes.ok a i4 => PRes.ok (PseudoClassNode.mk identifier [a]) i4
            else PRes.ok (PseudoClassNode.mk identifier []) i3

/-- Source `Parser._make_pseudo_element_node`: `'::' IDENTIFIER attr_selector?`. -/
def p_make_pseudo_element_node (tokens : List Token) : Nat → Nat → PRes PseudoElementNode
  | 0, _ => PRes.spin
  | fuel + 1, i =>
    match p_expect tokens i (some [TokenType.PSEUDO_ELEMENT]) with
    | PRes.err e => PRes.err e
    | PRes.spin => PRes.spin
    | PRes.ok _ i2 =>
      match tokens.get? i2 with
      | none => PRes.err PErr.noneType
      | some identifier =>
        match p_expect tokens i2 (some [TokenType.IDENTIFIER]) with
        | PRes.err e => PRes.err e
        | PRes.spin => PRes.spin
        | PRes.ok _ i3 =>
          match tokens.get? i3 with
          | none => PRes.err PErr.noneType
          | some t3 =>
            if t3.type = TokenType.SQUARE_L then
              match p_make_attribute_selector_node tokens fuel i3 with
              | PRes.err e => PRes.err e
              | PRes.spin => PRes.spin
              | PRes.ok a i4 => PRes.ok (PseudoElementNode.mk identifier [a]) i4
            else PRes.ok (PseudoElementNode.mk identifier []) i3

/-- Source `Parser._make_identifier_list_node`: the `using` name list. -/
def p_make_identifier_list_node (tokens : List Token) : Nat → Nat → PRes IdentifierListNode
  | 0, _ => PRes.spin
  | fuel + 1, i =>
    match tokens.get? i with
    | none =>
      match p_expect tokens i (some IDENTIFIERS) with
      | PRes.err e => PRes.err e
      | _ => PRes.err PErr.noneType
    | some first =>
      match p_expect tokens i (some IDENTIFIERS) with
      | PRes.err e => PRes.err e
      | PRes.spin => PRes.spin
      | PRes.ok _ i2 =>
        match p_ident_list_loop tokens fuel [first] i2 with
        | PRes.err e => PRes.err e
        | PRes.spin => PRes.spin
        | PRes.ok ids i3 => PRes.ok (IdentifierListNode.mk ids) i3

/-- The comma loop of `Parser._make_identifier_list_node`. -/
def p_ident_list_loop (tokens : List Token) : Nat → List Token → Nat → PRes (List Token)
  | 0, _, _ => PRes.spin
  | fuel + 1, acc, i =>
    match tokens.get? i with
    | none => PRes.err PErr.noneType
    | some t =>
      if t.type = TokenType.COMMA then
        match tokens.get? (i + 1) with
        | none =>
          match p_expect tokens (i + 1) (some [TokenType.IDENTIFIER]) with
          | PRes.err e => PRes.err e
          | _ => PRes.err PErr.noneType
        | some nxt =>
          match p_expect tokens (i + 1) (some [TokenType.IDENTIFIER]) with
          | PRes.err e => PRes.err e
          | PRes.spin => PRes.spin
          | PRes.ok _ i2 => p_ident_list_loop tokens fuel (acc ++ [nxt]) i2
      else PRes.ok acc i

end

/-- Source `Parser.parse` / `Parser._make_root`: run the statement loop from index 0
and wrap the statements in a `RootNode`. -/
def p_parse (tokens : List Token) (fuel : Nat) : PRes RootNode :=
  match p_root_loop tokens fuel [] 0 with
  | PRes.ok stmts i => PRes.ok (RootNode.mk stmts) i
  | PRes.err e => PRes.err e
  | PRes.spin => PRes.spin

/-! ## Derived notions used by the claims -/

/-- Remove every whitespace character from a string (what both renderings may
differ by: separators). -/
def strip_ws (s : String) : String :=
  String.mk (s.data.filter (fun c => ¬ c.isWhitespace))

/-- The observable content of a rendered fragment for mode comparison: its
non-whitespace characters in order, and whether it is the empty string
(emptiness decides the `single_css[0]` separator lookup). -/
def render_profile (s : String) : String × Bool :=
  (strip_ws s, s.data.isEmpty)

/-- Whether the `first_char_space` rule suppresses the separating space:
the rendered single selector starts with a combinator glyph. -/
def first_char_combinator (s : String) : Bool :=
  match s.data with
  | [] => false
  | c :: _ => c = '+' ∨ c = '~' ∨ c = '>'

/-- A combinator token as the lexer and parser actually produce it: a
retained `SPACE` has value `" "`, and any other combinator token has a
non-empty value (its glyph). -/
def wf_comb_token (t : Token) : Prop :=
  if t.type = TokenType.SPACE then t.value = " " else t.value ≠ ""

/-- Well-formedness of a single selector (all its continuation combinator
tokens are as produced by the pipeline). -/
def wf_single (n : SingleSelectorNode) : Prop :=
  ∀ pr ∈ n.combinator_selector_list, wf_comb_token pr.1

/-- Well-formedness of a selector group and its enclosing chain. -/
def wf_selector : SelectorNode → Prop
  | SelectorNode.mk singles none => ∀ s ∈ singles, wf_single s
  | SelectorNode.mk singles (some p) => (∀ s ∈ singles, wf_single s) ∧ wf_selector p

/-- Length of the enclosing-group chain. -/
def SelectorNode.depth : SelectorNode → Nat
  | SelectorNode.mk _ none => 0
  | SelectorNode.mk _ (some p) => p.depth + 1

/-- The mixin names defined by a statement list, in order. -/
def mixin_names (stmts : List Statement) : List String :=
  stmts.filterMap (fun s => match s with
    | Statement.mixin_def m => some m.symbol.value
    | _ => none)

/-- The alias names defined by a statement list, in order. -/
def alias_names (stmts : List Statement) : List String :=
  stmts.filterMap (fun s => match s with
    | Statement.alias_def a => some a.symbol.value
    | _ => none)

/-! Small concrete fixtures used to instantiate theorems. -/

/-- A token of kind `HTML_ELEMENT` with the given name. -/
def element_token (s : String) : Token :=
  { type := TokenType.HTML_ELEMENT, value := s }

/-- A single selector consisting of one type token. -/
def simple_single (s : String) : SingleSelectorNode :=
  { first_selector_sequence_node :=
      { sequence := [element_token s], attribute_selectors := [], pseudo_class_nodes := [] },
    combinator_selector_list := [], parent_combinator := none, pseudo_element_node := none }

/-- A top-level selector group over type selectors. -/
def simple_selector (names : List String) : SelectorNode :=
  SelectorNode.mk (names.map simple_single) none

/-- A style with empty body over type selectors. -/
def simple_style (names : List String) : StyleNode :=
  StyleNode.mk (simple_selector names) (StyleBodyNode.mk [] []) none

/-- A property declaration fixture. -/
def simple_property (n v : String) : PropertyNode :=
  { property_token := { type := TokenType.CSS_PROPERTY, value := n },
    property_value_token := { type := TokenType.CSS_PROPERTY_VALUE, value := v } }

/-- A mixin definition fixture. -/
def simple_mixin (name : String) (props : List PropertyNode)
    (children : List StyleNode) : MixinDefNode :=
  { symbol := { type := TokenType.IDENTIFIER, value := name },
    style_body_node := StyleBodyNode.mk props children }

/-! ## General lemmas about the evaluation combinators -/

theorem mapE_ok_mem {α β ε : Type} (f : α → Except ε β) (l : List α) (r : List β)
    (h : mapE f l = Except.ok r) : ∀ x ∈ l, ∃ y, f x = Except.ok y := by
  induction l generalizing r with
  | nil => intro x hx; cases hx
  | cons a as ih =>
    intro x hx
    unfold mapE at h
    cases hfa : f a with
    | error e => rw [hfa] at h; cases h
    | ok v =>
      rw [hfa] at h
      cases hrest : mapE f as with
      | error e => rw [hrest] at h; cases h
      | ok vs =>
        rw [hrest] at h
        cases hx with
        | head => exact ⟨v, hfa⟩
        | tail _ hmem => exact ih vs hrest x hmem

theorem mapE_of_forall_ok {α β ε : Type} (f : α → Except ε β) (g : α → β) (l : List α)
    (h : ∀ x ∈ l, f x = Except.ok (g x)) : mapE f l = Except.ok (l.map g) := by
  induction l with
  | nil => rfl
  | cons a as ih =>
    unfold mapE
    rw [h a (List.mem_cons_self a as), ih (fun x hx => h x (List.mem_cons_of_mem a hx))]
    rfl

theorem trav_step_root (acc : Compiler) (statement : Statement) (acc2 : Compiler)
    (h : trav_step acc statement = Except.ok acc2) : acc2.root_node = acc.root_node := by
  cases statement with
  | style s => cases h; rfl
  | mixin_def m =>
    simp only [trav_step] at h
    split at h
    · cases h
    · cases h; rfl
  | alias_def a =>
    simp only [trav_step] at h
    split at h
    · cases h
    · cases h; rfl

theorem foldE_trav_root (stmts : List Statement) :
    ∀ (acc c2 : Compiler), foldE trav_step acc stmts = Except.ok c2 →
      c2.root_node = acc.root_node := by
  induction stmts with
  | nil => intro acc c2 h; cases h; rfl
  | cons a as ih =>
    intro acc c2 h
    unfold foldE at h
    cases hs : trav_step acc a with
    | error e => rw [hs] at h; cases h
    | ok acc1 =>
      rw [hs] at h
      exact (ih acc1 c2 h).trans (trav_step_root acc a acc1 hs)

theorem traverse_congr (a b : Compiler) (h : a.root_node = b.root_node) :
    a.traverse = b.traverse := by
  unfold Compiler.traverse
  rw [show ({ a with mixin_table := [], alias_table := [] } : Compiler)
        = { b with mixin_table := [], alias_table := [] } by rw [Compiler.mk.injEq]; exact ⟨h, rfl, rfl⟩,
      h]

/-! ## Claims -/

/-- C9: compilation is a deterministic function of the AST and the mode —
two `Compiler` objects over the same AST produce identical results whatever
symbol tables they currently hold (the tables are rebuilt from the AST by
pass 1 on every call), and a second `compile_css` call on the state left by a
successful call returns the byte-identical string. -/
theorem c9_compile_deterministic :
    ∀ (c1 c2 : Compiler) (minified : Bool), c1.root_node = c2.root_node →
      compile_css c1 minified = compile_css c2 minified ∧
      (∀ s c3, compile_css c1 minified = Except.ok (s, c3) →
        compile_css c3 minified = Except.ok (s, c3)) := by
  have main : ∀ (c1 c2 : Compiler) (minified : Bool), c1.root_node = c2.root_node →
      compile_css c1 minified = compile_css c2 minified := by
    intro c1 c2 minified h
    unfold compile_css
    rw [traverse_congr c1 c2 h]
  intro c1 c2 minified h
  refine ⟨main c1 c2 minified h, ?_⟩
  intro s c3 hok
  have hroot : c3.root_node = c1.root_node := by
    unfold compile_css at hok
    cases ht : c1.traverse with
    | error e => rw [ht] at hok; cases hok
    | ok c4 =>
      simp only [ht] at hok
      cases hr : (if minified = true then RootNode.parse_min_css c4.mixin_table c4.root_node
                  else RootNode.parse_css c4.mixin_table c4.root_node) with
      | error e => simp only [hr] at hok; cases hok
      | ok s0 =>
        simp only [hr] at hok
        cases hok
        exact foldE_trav_root c1.root_node.statements { c1 with mixin_table := [], alias_table := [] } _ ht
  rw [main c3 c1 minified hroot]
  exact hok

/-- C9 witness: a compiler carrying a stale mixin table and a fresh compiler
over the same AST compile identically. -/
theorem c9_witness :
    compile_css { root_node := RootNode.mk [Statement.style (simple_style ["a"])],
                  mixin_table := [("junk", simple_mixin "junk" [] [])] } true
      = compile_css { root_node := RootNode.mk [Statement.style (simple_style ["a"])] } true :=
  (c9_compile_deterministic
    { root_node := RootNode.mk [Statement.style (simple_style ["a"])],
      mixin_table := [("junk", simple_mixin "junk" [] [])] }
    { root_node := RootNode.mk [Statement.style (simple_style ["a"])] } true rfl).1

/-- C2 counterexample: the expanded selector list is rendered in declaration
order, not lexicographic order — the style over the selector group `b, a`
emits `b, a {}` although the lexicographically sorted list would render
`a, b {}`. -/
theorem c2_counterexample :
    StyleNode.parse_css [] (simple_style ["b", "a"]) = Except.ok "b, a \x7b\x7d"
    ∧ SelectorNode.parse_list_css (simple_selector ["b", "a"]) = Except.ok ["b", "a"]
    ∧ sortStrings ["b", "a"] = ["a", "b"]
    ∧ "b, a \x7b\x7d" ≠ "a, b \x7b\x7d" :=
  ⟨rfl, rfl, by decide, by decide⟩

/-- C2 amended: in both renderings the property list of each rule and the
sibling style blocks (at the root, and a style's own rule together with its
nested children's blocks) are rendered in lexicographic (code-point sorted)
order; the expanded selector list, however, is rendered in its expansion
(declaration) order, joined by `', '` / `','`, and is not sorted. -/
theorem c2_amended_orders :
    (∀ l : List String,
      (sortStrings l).Sorted (fun a b => a.data ≤ b.data) ∧ List.Perm (sortStrings l) l)
    ∧ (∀ tbl r s, RootNode.parse_css tbl r = Except.ok s →
        ∃ blocks,
          mapE (StyleNode.parse_css tbl) (r.statements.filterMap Statement.as_css_node)
            = Except.ok blocks ∧
          s = str_intercalate "\n" (sortStrings blocks))
    ∧ (∀ tbl r s, RootNode.parse_min_css tbl r = Except.ok s →
        ∃ blocks,
          mapE (StyleNode.parse_min_css tbl) (r.statements.filterMap Statement.as_css_node)
            = Except.ok blocks ∧
          s = str_join (sortStrings blocks))
    ∧ (∀ tbl sel props children ml s,
        StyleNode.parse_css tbl (StyleNode.mk sel (StyleBodyNode.mk props children) ml)
          = Except.ok s →
        ∃ selector properties child_css,
          SelectorNode.parse_css sel = Except.ok selector ∧
          style_props_css tbl (StyleBodyNode.mk props children) ml = Except.ok properties ∧
          style_children_css tbl children = Except.ok child_css ∧
          s = str_intercalate "\n" (sortStrings
            ((selector ++ (if properties = [] then " \x7b\x7d"
              else " \x7b\n" ++ str_intercalate ";\n" (sortStrings properties) ++ "\n\x7d"))
              :: child_css)))
    ∧ (∀ tbl sel props children ml s,
        StyleNode.parse_min_css tbl (StyleNode.mk sel (StyleBodyNode.mk props children) ml)
          = Except.ok s →
        ∃ selector properties child_css,
          SelectorNode.parse_min_css sel = Except.ok selector ∧
          style_props_min_css tbl (StyleBodyNode.mk props children) ml = Except.ok properties ∧
          style_children_min_css tbl children = Except.ok child_css ∧
          s = str_join (sortStrings
            ((selector ++ (if properties = [] then "\x7b\x7d"
              else "\x7b" ++ str_intercalate ";" (sortStrings properties) ++ "\x7d"))
              :: child_css)))
    ∧ (∀ sel : SelectorNode,
        SelectorNode.parse_css sel
          = (SelectorNode.parse_list_css sel).map (str_intercalate ", ") ∧
        SelectorNode.parse_min_css sel
          = (SelectorNode.parse_list_min_css sel).map (str_intercalate ",")) := by
  refine ⟨fun l => ⟨List.sorted_insertionSort _ l, List.perm_insertionSort _ l⟩,
    ?_, ?_, ?_, ?_, ?_⟩
  · intro tbl r s h
    unfold RootNode.parse_css at h
    cases hm : mapE (StyleNode.parse_css tbl) (r.statements.filterMap Statement.as_css_node) with
    | error e => rw [hm] at h; cases h
    | ok blocks => rw [hm] at h; cases h; exact ⟨blocks, rfl, rfl⟩
  · intro tbl r s h
    unfold RootNode.parse_min_css at h
    cases hm : mapE (StyleNode.parse_min_css tbl) (r.statements.filterMap Statement.as_css_node) with
    | error e => rw [hm] at h; cases h
    | ok blocks => rw [hm] at h; cases h; exact ⟨blocks, rfl, rfl⟩
  · intro tbl sel props children ml s h
    rw [StyleNode.parse_css] at h
    cases hsel : sel.parse_css with
    | error e => rw [hsel] at h; cases h
    | ok selector =>
      rw [hsel] at h
      cases hp : style_props_css tbl (StyleBodyNode.mk props children) ml with
      | error e => rw [hp] at h; cases h
      | ok properties =>
        rw [hp] at h
        cases hc : style_children_css tbl children with
        | error e => rw [hc] at h; cases h
        | ok child_css =>
          rw [hc] at h
          cases h
          exact ⟨selector, properties, child_css, rfl, rfl, rfl, rfl⟩
  · intro tbl sel props children ml s h
    rw [StyleNode.parse_min_css] at h
    cases hsel : sel.parse_min_css with
    | error e => rw [hsel] at h; cases h
    | ok selector =>
      rw [hsel] at h
      cases hp : style_props_min_css tbl (StyleBodyNode.mk props children) ml with
      | error e => rw [hp] at h; cases h
      | ok properties =>
        rw [hp] at h
        cases hc : style_children_min_css tbl children with
        | error e => rw [hc] at h; cases h
        | ok child_css =>
          rw [hc] at h
          cases h
          exact ⟨selector, properties, child_css, rfl, rfl, rfl, rfl⟩
  · intro sel
    constructor
    · unfold SelectorNode.parse_css
      cases h : sel.parse_list_css <;> simp [h, Except.map]
    · unfold SelectorNode.parse_min_css
      cases h : sel.parse_list_min_css <;> simp [h, Except.map]

/-- C2 amended witness: the one-style root `a {}` goes through the sorted
block assembly in the pretty rendering, and the style itself goes through the
sorted rule assembly in the minified rendering. -/
theorem c2_amended_witness :
    (∃ blocks,
      mapE (StyleNode.parse_css [])
          ((RootNode.mk [Statement.style (simple_style ["a"])]).statements.filterMap
            Statement.as_css_node)
        = Except.ok blocks ∧
      "a \x7b\x7d" = str_intercalate "\n" (sortStrings blocks))
    ∧ (∃ selector properties child_css,
        SelectorNode.parse_min_css (simple_selector ["a"]) = Except.ok selector ∧
        style_props_min_css [] (StyleBodyNode.mk [] []) none = Except.ok properties ∧
        style_children_min_css [] [] = Except.ok child_css ∧
        "a\x7b\x7d" = str_join (sortStrings
          ((selector ++ (if properties = [] then "\x7b\x7d"
            else "\x7b" ++ str_intercalate ";" (sortStrings properties) ++ "\x7d"))
            :: child_css))) :=
  ⟨c2_amended_orders.2.1 [] (RootNode.mk [Statement.style (simple_style ["a"])]) "a \x7b\x7d" rfl,
   c2_amended_orders.2.2.2.2.1 [] (simple_selector ["a"]) [] [] none "a\x7b\x7d" rfl⟩

theorem foldE_cons_ok {α β ε : Type} (f : β → α → Except ε β) (b b2 : β) (a : α)
    (as : List α) (h : f b a = Except.ok b2) :
    foldE f b (a :: as) = foldE f b2 as := by
  show (match f b a with
    | Except.error e => Except.error e
    | Except.ok b2 => foldE f b2 as) = foldE f b2 as
  rw [h]

theorem lookup_append_none {β : Type} (l : List (String × β)) (k n : String) (v : β) :
    List.lookup n (l ++ [(k, v)]) = none ↔ (List.lookup n l = none ∧ n ≠ k) := by
  induction l with
  | nil =>
    by_cases hnk : n = k
    · subst hnk
      simp [List.lookup]
    · have hb : (n == k) = false := beq_eq_false_iff_ne.mpr hnk
      simp [List.lookup, hb, hnk]
  | cons hd tl ih =>
    obtain ⟨k2, v2⟩ := hd
    by_cases hnk : n = k2
    · subst hnk
      simp [List.lookup]
    · have hb : (n == k2) = false := beq_eq_false_iff_ne.mpr hnk
      simp [List.lookup, hb, ih]

theorem trav_ok_mixin_nodup (stmts : List Statement) :
    ∀ (acc c2 : Compiler), foldE trav_step acc stmts = Except.ok c2 →
      (mixin_names stmts).Nodup ∧
      ∀ n ∈ mixin_names stmts, List.lookup n acc.mixin_table = none := by
  induction stmts with
  | nil =>
    intro acc c2 _
    exact ⟨List.nodup_nil, fun n hn => absurd hn (List.not_mem_nil n)⟩
  | cons a as ih =>
    intro acc c2 h
    unfold foldE at h
    cases hs : trav_step acc a with
    | error e => rw [hs] at h; cases h
    | ok acc1 =>
      rw [hs] at h
      obtain ⟨hnd, hfresh⟩ := ih acc1 c2 h
      cases a with
      | style s =>
        cases hs
        exact ⟨by simpa [mixin_names] using hnd, by simpa [mixin_names] using hfresh⟩
      | alias_def al =>
        simp only [trav_step] at hs
        split at hs
        · cases hs
        · cases hs
          exact ⟨by simpa [mixin_names] using hnd, by simpa [mixin_names] using hfresh⟩
      | mixin_def m =>
        simp only [trav_step] at hs
        split at hs
        · cases hs
        · cases hs
          rename_i hnotin
          have hnone : List.lookup m.symbol.value acc.mixin_table = none :=
            Option.not_isSome_iff_eq_none.mp hnotin
          have hfresh2 : ∀ n ∈ mixin_names as, List.lookup n acc.mixin_table = none ∧
              n ≠ m.symbol.value := by
            intro n hn
            exact (lookup_append_none acc.mixin_table m.symbol.value n m).mp (hfresh n hn)
          constructor
          · simp only [mixin_names, List.filterMap_cons] at *
            exact List.Nodup.cons
              (fun hmem => (hfresh2 m.symbol.value hmem).2 rfl) hnd
          · intro n hn
            simp only [mixin_names, List.filterMap_cons] at hn
            cases hn with
            | head => exact hnone
            | tail _ hmem => exact (hfresh2 n hmem).1

theorem trav_ok_alias_nodup (stmts : List Statement) :
    ∀ (acc c2 : Compiler), foldE trav_step acc stmts = Except.ok c2 →
      (alias_names stmts).Nodup ∧
      ∀ n ∈ alias_names stmts, List.lookup n acc.alias_table = none := by
  induction stmts with
  | nil =>
    intro acc c2 _
    exact ⟨List.nodup_nil, fun n hn => absurd hn (List.not_mem_nil n)⟩
  | cons a as ih =>
    intro acc c2 h
    unfold foldE at h
    cases hs : trav_step acc a with
    | error e => rw [hs] at h; cases h
    | ok acc1 =>
      rw [hs] at h
      obtain ⟨hnd, hfresh⟩ := ih acc1 c2 h
      cases a with
      | style s =>
        cases hs
        exact ⟨by simpa [alias_names] using hnd, by simpa [alias_names] using hfresh⟩
      | mixin_def m =>
        simp only [trav_step] at hs
        split at hs
        · cases hs
        · cases hs
          exact ⟨by simpa [alias_names] using hnd, by simpa [alias_names] using hfresh⟩
      | alias_def al =>
        simp only [trav_step] at hs
        split at hs
        · cases hs
        · cases hs
          rename_i hnotin
          have hnone : List.lookup al.symbol.value acc.alias_table = none :=
            Option.not_isSome_iff_eq_none.mp hnotin
          have hfresh2 : ∀ n ∈ alias_names as, List.lookup n acc.alias_table = none ∧
              n ≠ al.symbol.value := by
            intro n hn
            exact (lookup_append_none acc.alias_table al.symbol.value n al).mp (hfresh n hn)
          constructor
          · simp only [alias_names, List.filterMap_cons] at *
            exact List.Nodup.cons
              (fun hmem => (hfresh2 al.symbol.value hmem).2 rfl) hnd
          · intro n hn
            simp only [alias_names, List.filterMap_cons] at hn
            cases hn with
            | head => exact hnone
            | tail _ hmem => exact (hfresh2 n hmem).1

theorem trav_ok_mixin_domain (stmts : List Statement) :
    ∀ (acc c2 : Compiler), foldE trav_step acc stmts = Except.ok c2 →
      ∀ n, n ∉ mixin_names stmts → List.lookup n acc.mixin_table = none →
        List.lookup n c2.mixin_table = none := by
  induction stmts with
  | nil =>
    intro acc c2 h n _ hacc
    cases h
    exact hacc
  | cons a as ih =>
    intro acc c2 h n hnot hacc
    unfold foldE at h
    cases hs : trav_step acc a with
    | error e => rw [hs] at h; cases h
    | ok acc1 =>
      rw [hs] at h
      cases a with
      | style s =>
        cases hs
        exact ih _ c2 h n (by simpa [mixin_names] using hnot) hacc
      | alias_def al =>
        simp only [trav_step] at hs
        split at hs
        · cases hs
        · cases hs
          exact ih _ c2 h n (by simpa [mixin_names] using hnot) hacc
      | mixin_def m =>
        simp only [trav_step] at hs
        split at hs
        · cases hs
        · cases hs
          have hne : n ≠ m.symbol.value ∧ n ∉ mixin_names as := by
            simp only [mixin_names, List.filterMap_cons] at hnot
            exact ⟨fun he => hnot (he ▸ List.mem_cons_self _ _), fun hm => hnot (List.mem_cons_of_mem _ hm)⟩
          exact ih _ c2 h n hne.2
            ((lookup_append_none acc.mixin_table m.symbol.value n m).mpr ⟨hacc, hne.1⟩)

theorem foldE_mixin_ok_mem (tbl : MixinTable) (render : StyleBodyNode → List String) :
    ∀ (ids : List Token) (start ps : List String),
      foldE (fun props identifier => match get_mixin tbl identifier.value with
        | Except.error e => Except.error e
        | Except.ok m => Except.ok (props ++ render m.style_body_node)) start ids
        = Except.ok ps →
      ∀ id ∈ ids, ∃ m, get_mixin tbl id.value = Except.ok m := by
  intro ids
  induction ids with
  | nil => intro start ps _ id hid; cases hid
  | cons a as ih =>
    intro start ps h id hid
    unfold foldE at h
    cases hg : get_mixin tbl a.value with
    | error e => rw [hg] at h; cases h
    | ok m =>
      rw [hg] at h
      cases hid with
      | head => exact ⟨m, hg⟩
      | tail _ hmem => exact ih _ ps h id hmem

theorem foldE_mixin_concat (tbl : MixinTable) (render : StyleBodyNode → List String) :
    ∀ (ids : List Token) (start : List String),
      (∀ id ∈ ids, (List.lookup id.value tbl).isSome) →
      foldE (fun props identifier => match get_mixin tbl identifier.value with
          | Except.error e => Except.error e
          | Except.ok m => Except.ok (props ++ render m.style_body_node)) start ids
        = Except.ok (start ++ ids.flatMap (fun id =>
            match List.lookup id.value tbl with
            | some m => render m.style_body_node
            | none => [])) := by
  intro ids
  induction ids with
  | nil => intro start _; simp [foldE]
  | cons a as ih =>
    intro start hsome
    obtain ⟨m, hm⟩ := Option.isSome_iff_exists.mp (hsome a (List.mem_cons_self a as))
    have hget : get_mixin tbl a.value = Except.ok m := by
      unfold get_mixin
      rw [hm]
    have hstep : (fun props identifier => match get_mixin tbl identifier.value with
        | Except.error e => Except.error e
        | Except.ok m => Except.ok (props ++ render m.style_body_node)) start a
        = Except.ok (start ++ render m.style_body_node) := by
      simp only [hget]
    rw [foldE_cons_ok _ _ _ _ _ hstep,
      ih (start ++ render m.style_body_node)
        (fun id hid => hsome id (List.mem_cons_of_mem a hid))]
    simp [hm, List.append_assoc]

/-- Inversion of a successful pretty style emission down to its accumulated
property list. -/
theorem style_parse_css_inv (tbl : MixinTable) (sel : SelectorNode)
    (props : List PropertyNode) (children : List StyleNode)
    (ml : Option IdentifierListNode) (s : String)
    (h : StyleNode.parse_css tbl (StyleNode.mk sel (StyleBodyNode.mk props children) ml)
      = Except.ok s) :
    ∃ properties, style_props_css tbl (StyleBodyNode.mk props children) ml
      = Except.ok properties := by
  rw [StyleNode.parse_css] at h
  cases hsel : sel.parse_css with
  | error e => rw [hsel] at h; cases h
  | ok selector =>
    rw [hsel] at h
    cases hp : style_props_css tbl (StyleBodyNode.mk props children) ml with
    | error e => rw [hp] at h; cases h
    | ok properties => exact ⟨properties, rfl⟩

/-- Inversion of a successful minified style emission. -/
theorem style_parse_min_css_inv (tbl : MixinTable) (sel : SelectorNode)
    (props : List PropertyNode) (children : List StyleNode)
    (ml : Option IdentifierListNode) (s : String)
    (h : StyleNode.parse_min_css tbl (StyleNode.mk sel (StyleBodyNode.mk props children) ml)
      = Except.ok s) :
    ∃ properties, style_props_min_css tbl (StyleBodyNode.mk props children) ml
      = Except.ok properties := by
  rw [StyleNode.parse_min_css] at h
  cases hsel : sel.parse_min_css with
  | error e => rw [hsel] at h; cases h
  | ok selector =>
    rw [hsel] at h
    cases hp : style_props_min_css tbl (StyleBodyNode.mk props children) ml with
    | error e => rw [hp] at h; cases h
    | ok properties => exact ⟨properties, rfl⟩

/-- C4: two mixin definitions (or two alias definitions) sharing a name make
pass 1 (`_traverse`) itself fail — before any emission — and the whole
compilation returns that error; a style whose `using` list names a mixin that
no statement defines makes the compilation fail as well; in every case the
result is an error value and no output string. -/
theorem c4_fatal_semantic_errors :
    ∀ (c : Compiler) (minified : Bool),
      (¬ (mixin_names c.root_node.statements).Nodup →
        ∃ e, c.traverse = Except.error e ∧ compile_css c minified = Except.error e)
      ∧ (¬ (alias_names c.root_node.statements).Nodup →
        ∃ e, c.traverse = Except.error e ∧ compile_css c minified = Except.error e)
      ∧ (∀ st ids identifier,
          Statement.style st ∈ c.root_node.statements →
          st.mixin_list = some ids →
          identifier ∈ ids.identifiers →
          identifier.value ∉ mixin_names c.root_node.statements →
          ∃ e, compile_css c minified = Except.error e) := by
  intro c minified
  refine ⟨?_, ?_, ?_⟩
  · intro hdup
    cases ht : c.traverse with
    | ok c2 =>
      exact absurd (trav_ok_mixin_nodup c.root_node.statements _ c2 ht).1 hdup
    | error e =>
      refine ⟨e, rfl, ?_⟩
      unfold compile_css
      rw [ht]
  · intro hdup
    cases ht : c.traverse with
    | ok c2 =>
      exact absurd (trav_ok_alias_nodup c.root_node.statements _ c2 ht).1 hdup
    | error e =>
      refine ⟨e, rfl, ?_⟩
      unfold compile_css
      rw [ht]
  · intro st ids identifier hmem hml hid hnotin
    cases ht : c.traverse with
    | error e =>
      refine ⟨e, ?_⟩
      unfold compile_css
      rw [ht]
    | ok c2 =>
      have hdom : List.lookup identifier.value c2.mixin_table = none :=
        trav_ok_mixin_domain c.root_node.statements _ c2 ht identifier.value hnotin rfl
      cases hr : (if minified = true then RootNode.parse_min_css c2.mixin_table c2.root_node
                  else RootNode.parse_css c2.mixin_table c2.root_node) with
      | error e =>
        refine ⟨e, ?_⟩
        unfold compile_css
        rw [ht]
        simp only [hr]
      | ok s =>
        exfalso
        have hroot : c2.root_node = c.root_node :=
          foldE_trav_root c.root_node.statements
            { c with mixin_table := [], alias_table := [] } c2 ht
        have hstmem : st ∈ c2.root_node.statements.filterMap Statement.as_css_node := by
          rw [hroot]
          exact List.mem_filterMap.mpr ⟨Statement.style st, hmem, rfl⟩
        obtain ⟨selx, sbn, mlx⟩ := st
        obtain ⟨propsx, childrenx⟩ := sbn
        have hmlx : mlx = some ids := by simpa [StyleNode.mixin_list] using hml
        subst hmlx
        cases minified with
        | true =>
          simp only [if_pos rfl] at hr
          unfold RootNode.parse_min_css at hr
          cases hmap : mapE (StyleNode.parse_min_css c2.mixin_table)
              (c2.root_node.statements.filterMap Statement.as_css_node) with
          | error e =>
            rw [hmap] at hr; cases hr
          | ok blocks =>
            obtain ⟨sres, hst⟩ := mapE_ok_mem _ _ _ hmap _ hstmem
            obtain ⟨properties, hp⟩ := style_parse_min_css_inv _ _ _ _ _ _ hst
            unfold style_props_min_css at hp
            obtain ⟨m, hm⟩ := foldE_mixin_ok_mem c2.mixin_table
              StyleBodyNode.parse_list_min_css ids.identifiers _ _ hp identifier hid
            unfold get_mixin at hm
            rw [hdom] at hm
            cases hm
        | false =>
          simp only [if_neg (by decide : ¬ (false = true))] at hr
          unfold RootNode.parse_css at hr
          cases hmap : mapE (StyleNode.parse_css c2.mixin_table)
              (c2.root_node.statements.filterMap Statement.as_css_node) with
          | error e =>
            rw [hmap] at hr; cases hr
          | ok blocks =>
            obtain ⟨sres, hst⟩ := mapE_ok_mem _ _ _ hmap _ hstmem
            obtain ⟨properties, hp⟩ := style_parse_css_inv _ _ _ _ _ _ hst
            unfold style_props_css at hp
            obtain ⟨m, hm⟩ := foldE_mixin_ok_mem c2.mixin_table
              StyleBodyNode.parse_list_css ids.identifiers _ _ hp identifier hid
            unfold get_mixin at hm
            rw [hdom] at hm
            cases hm

/-- C4 witness: duplicate mixins, duplicate aliases and an undefined `using`
reference each abort concrete compilations with an error. -/
theorem c4_witness :
    (∃ e, Compiler.traverse
        { root_node := RootNode.mk [Statement.mixin_def (simple_mixin "a" [] []),
                                    Statement.mixin_def (simple_mixin "a" [] [])] }
        = Except.error e ∧
      compile_css
        { root_node := RootNode.mk [Statement.mixin_def (simple_mixin "a" [] []),
                                    Statement.mixin_def (simple_mixin "a" [] [])] } true
        = Except.error e)
    ∧ (∃ e, Compiler.traverse
        { root_node := RootNode.mk
            [Statement.alias_def { symbol := { type := TokenType.IDENTIFIER, value := "x" },
                                   selector_node := none },
             Statement.alias_def { symbol := { type := TokenType.IDENTIFIER, value := "x" },
                                   selector_node := none }] }
        = Except.error e ∧
      compile_css
        { root_node := RootNode.mk
            [Statement.alias_def { symbol := { type := TokenType.IDENTIFIER, value := "x" },
                                   selector_node := none },
             Statement.alias_def { symbol := { type := TokenType.IDENTIFIER, value := "x" },
                                   selector_node := none }] } true
        = Except.error e)
    ∧ (∃ e, compile_css
        { root_node := RootNode.mk [Statement.style (StyleNode.mk (simple_selector ["a"])
            (StyleBodyNode.mk [] [])
            (some { identifiers := [{ type := TokenType.IDENTIFIER, value := "missing" }] }))] }
        true = Except.error e) := by
  refine ⟨?_, ?_, ?_⟩
  · exact (c4_fatal_semantic_errors _ true).1 (by decide)
  · exact (c4_fatal_semantic_errors _ true).2.1 (by decide)
  · exact (c4_fatal_semantic_errors _ true).2.2
      (StyleNode.mk (simple_selector ["a"]) (StyleBodyNode.mk [] [])
        (some { identifiers := [{ type := TokenType.IDENTIFIER, value := "missing" }] }))
      { identifiers := [{ type := TokenType.IDENTIFIER, value := "missing" }] }
      { type := TokenType.IDENTIFIER, value := "missing" }
      (List.mem_cons_self _ _) rfl (List.mem_cons_self _ _) (by simp [mixin_names])

/-- C5: with every `using` name bound in the mixin table, the property list a
style accumulates is exactly its own declared property renderings followed,
for each `using` name in source order, by the referenced mixin body's own
top-level property renderings — in both modes; and a style body's property
rendering is independent of its nested style children, so mixin-body children
contribute nothing and no recursive expansion happens. -/
theorem c5_mixin_property_concatenation :
    ∀ (tbl : MixinTable) (sbn : StyleBodyNode) (l : IdentifierListNode),
      ((∀ id ∈ l.identifiers, (List.lookup id.value tbl).isSome) →
        style_props_css tbl sbn (some l) = Except.ok (sbn.parse_list_css ++
          l.identifiers.flatMap (fun id => match List.lookup id.value tbl with
            | some m => m.style_body_node.parse_list_css
            | none => []))
        ∧ style_props_min_css tbl sbn (some l) = Except.ok (sbn.parse_list_min_css ++
          l.identifiers.flatMap (fun id => match List.lookup id.value tbl with
            | some m => m.style_body_node.parse_list_min_css
            | none => [])))
      ∧ (∀ props ch ch2,
          StyleBodyNode.parse_list_css (StyleBodyNode.mk props ch)
            = StyleBodyNode.parse_list_css (StyleBodyNode.mk props ch2)
          ∧ StyleBodyNode.parse_list_min_css (StyleBodyNode.mk props ch)
            = StyleBodyNode.parse_list_min_css (StyleBodyNode.mk props ch2)) := by
  intro tbl sbn l
  constructor
  · intro hsome
    constructor
    · unfold style_props_css
      exact foldE_mixin_concat tbl StyleBodyNode.parse_list_css l.identifiers
        sbn.parse_list_css hsome
    · unfold style_props_min_css
      exact foldE_mixin_concat tbl StyleBodyNode.parse_list_min_css l.identifiers
        sbn.parse_list_min_css hsome
  · intro props ch ch2
    exact ⟨rfl, rfl⟩

/-- C5 witness: a style pulling in two mixins concatenates its own property
with each mixin's top-level properties in `using` order, ignoring a nested
child inside the first mixin's body. -/
theorem c5_witness :
    style_props_css
        [("m1", simple_mixin "m1" [simple_property "color" "red"] [simple_style ["b"]]),
         ("m2", simple_mixin "m2" [simple_property "margin" "0"] [])]
        (StyleBodyNode.mk [simple_property "top" "1px"] [])
        (some { identifiers := [{ type := TokenType.IDENTIFIER, value := "m1" },
                                { type := TokenType.IDENTIFIER, value := "m2" }] })
      = Except.ok ["  top: 1px", "  color: red", "  margin: 0"] := by
  have h := (c5_mixin_property_concatenation
    [("m1", simple_mixin "m1" [simple_property "color" "red"] [simple_style ["b"]]),
     ("m2", simple_mixin "m2" [simple_property "margin" "0"] [])]
    (StyleBodyNode.mk [simple_property "top" "1px"] [])
    { identifiers := [{ type := TokenType.IDENTIFIER, value := "m1" },
                      { type := TokenType.IDENTIFIER, value := "m2" }] }).1
    (by decide)
  exact h.1

theorem mapE_congr_ok {α β γ ε : Type} (f : α → Except ε β) (g : α → Except ε γ)
    (h2 : β → γ) (l : List α) :
    ∀ (r : List β), mapE f l = Except.ok r →
    (∀ x y, f x = Except.ok y → y ∈ r → g x = Except.ok (h2 y)) →
    mapE g l = Except.ok (r.map h2) := by
  induction l with
  | nil => intro r hf _; cases hf; rfl
  | cons a as ih =>
    intro r hf hg
    unfold mapE at hf
    cases hfa : f a with
    | error e => rw [hfa] at hf; cases hf
    | ok v =>
      rw [hfa] at hf
      cases hrest : mapE f as with
      | error e => rw [hrest] at hf; cases hf
      | ok vs =>
        rw [hrest] at hf
        cases hf
        unfold mapE
        rw [hg a v hfa (List.mem_cons_self _ _),
          ih vs hrest (fun x y hxy hy => hg x y hxy (List.mem_cons_of_mem _ hy))]
        rfl

theorem flatMap_const_length {α β : Type} (g : α → List β) (k : Nat) :
    ∀ (P : List α), (∀ x ∈ P, (g x).length = k) → (P.flatMap g).length = P.length * k := by
  intro P
  induction P with
  | nil => intro _; simp
  | cons a as ih =>
    intro h
    simp only [List.flatMap_cons, List.length_append, List.length_cons,
      ih (fun x hx => h x (List.mem_cons_of_mem a hx)), h a (List.mem_cons_self a as)]
    ring

theorem first_char_space_ok (s : String) (h : s ≠ "") :
    first_char_space s = Except.ok (if first_char_combinator s then "" else " ") := by
  obtain ⟨data⟩ := s
  cases data with
  | nil => exact absurd rfl h
  | cons c rest =>
    by_cases hc : c = '+' ∨ c = '~' ∨ c = '>' <;>
      simp [first_char_space, first_char_combinator, hc]

/-- C1: a selector group with no enclosing reference expands to exactly its
own single-selector strings in order; one with an enclosing reference expands
to the Cartesian product — enclosing expanded strings as the outer loop, own
single-selector strings as the inner loop — pairing with one space unless the
child string starts with `+`, `~` or `>`, in which case no separator; the
expansion has length `N * M`. Both renderings use the same rule (the empty
child string over which the source would raise `IndexError` is excluded). -/
theorem c1_cartesian_expansion :
    ∀ (singles : List SingleSelectorNode) (p : SelectorNode) (P cs : List String),
      (mapE SingleSelectorNode.parse_css singles = Except.ok cs →
        SelectorNode.parse_list_css (SelectorNode.mk singles none) = Except.ok cs)
      ∧ (SelectorNode.parse_list_css p = Except.ok P →
         mapE SingleSelectorNode.parse_css singles = Except.ok cs →
         (∀ s ∈ cs, s ≠ "") →
         SelectorNode.parse_list_css (SelectorNode.mk singles (some p)) =
           Except.ok (P.flatMap (fun ps => cs.map (fun single_css =>
             ps ++ (if first_char_combinator single_css then "" else " ") ++ single_css)))
         ∧ (P.flatMap (fun ps => cs.map (fun single_css =>
             ps ++ (if first_char_combinator single_css then "" else " ") ++ single_css))).length
             = P.length * cs.length)
      ∧ (mapE SingleSelectorNode.parse_min_css singles = Except.ok cs →
        SelectorNode.parse_list_min_css (SelectorNode.mk singles none) = Except.ok cs)
      ∧ (SelectorNode.parse_list_min_css p = Except.ok P →
         mapE SingleSelectorNode.parse_min_css singles = Except.ok cs →
         (∀ s ∈ cs, s ≠ "") →
         SelectorNode.parse_list_min_css (SelectorNode.mk singles (some p)) =
           Except.ok (P.flatMap (fun ps => cs.map (fun single_css =>
             ps ++ (if first_char_combinator single_css then "" else " ") ++ single_css)))
         ∧ (P.flatMap (fun ps => cs.map (fun single_css =>
             ps ++ (if first_char_combinator single_css then "" else " ") ++ single_css))).length
             = P.length * cs.length) := by
  intro singles p P cs
  have hlen : (∀ s ∈ cs, s ≠ "") →
      (P.flatMap (fun ps => cs.map (fun single_css =>
        ps ++ (if first_char_combinator single_css then "" else " ") ++ single_css))).length
        = P.length * cs.length := by
    intro _
    exact flatMap_const_length _ cs.length P (fun x _ => List.length_map _ _)
  refine ⟨?_, ?_, ?_, ?_⟩
  · intro hcs
    rw [SelectorNode.parse_list_css]
    exact hcs
  · intro hP hcs hne
    refine ⟨?_, hlen hne⟩
    rw [SelectorNode.parse_list_css]
    simp only [hP]
    have hinner : ∀ ps : String,
        mapE (fun single =>
          match SingleSelectorNode.parse_css single with
          | Except.error e => Except.error e
          | Except.ok single_css =>
            match first_char_space single_css with
            | Except.error e => Except.error e
            | Except.ok space => Except.ok (ps ++ space ++ single_css)) singles
        = Except.ok (cs.map (fun single_css =>
            ps ++ (if first_char_combinator single_css then "" else " ") ++ single_css)) := by
      intro ps
      refine mapE_congr_ok _ _ _ singles cs hcs ?_
      intro x y hxy hy
      simp only [hxy, first_char_space_ok y (hne y hy)]
    rw [mapE_of_forall_ok _
      (fun ps => cs.map (fun single_css =>
        ps ++ (if first_char_combinator single_css then "" else " ") ++ single_css))
      P (fun ps _ => hinner ps)]
    simp [List.flatMap]
  · intro hcs
    rw [SelectorNode.parse_list_min_css]
    exact hcs
  · intro hP hcs hne
    refine ⟨?_, hlen hne⟩
    rw [SelectorNode.parse_list_min_css]
    simp only [hP]
    have hinner : ∀ ps : String,
        mapE (fun single =>
          match SingleSelectorNode.parse_min_css single with
          | Except.error e => Except.error e
          | Except.ok single_css =>
            match first_char_space single_css with
            | Except.error e => Except.error e
            | Except.ok space => Except.ok (ps ++ space ++ single_css)) singles
        = Except.ok (cs.map (fun single_css =>
            ps ++ (if first_char_combinator single_css then "" else " ") ++ single_css)) := by
      intro ps
      refine mapE_congr_ok _ _ _ singles cs hcs ?_
      intro x y hxy hy
      simp only [hxy, first_char_space_ok y (hne y hy)]
    rw [mapE_of_forall_ok _
      (fun ps => cs.map (fun single_css =>
        ps ++ (if first_char_combinator single_css then "" else " ") ++ single_css))
      P (fun ps _ => hinner ps)]
    simp [List.flatMap]

/-- C1 witness: a two-selector enclosing group and a one-selector nested
group yield the `2 * 1` expanded selectors `a c` and `b c`. -/
theorem c1_witness :
    SelectorNode.parse_list_css
        (SelectorNode.mk [simple_single "c"] (some (simple_selector ["a", "b"])))
      = Except.ok ((["a", "b"] : List String).flatMap (fun ps => (["c"] : List String).map
          (fun single_css =>
            ps ++ (if first_char_combinator single_css then "" else " ") ++ single_css)))
    ∧ ((["a", "b"] : List String).flatMap (fun ps => (["c"] : List String).map
        (fun single_css =>
          ps ++ (if first_char_combinator single_css then "" else " ") ++ single_css))).length
        = (["a", "b"] : List String).length * (["c"] : List String).length :=
  (c1_cartesian_expansion [simple_single "c"] (simple_selector ["a", "b"])
    ["a", "b"] ["c"]).2.1 rfl rfl (by decide)

/-- C3 (code bug): the parser does not terminate on every EOF-terminated
token sequence — on `[IDENTIFIER, EOF]` the root loop matches no branch,
consumes nothing, and repeats forever: for every fuel bound the run is still
spinning, so `parse()` neither returns a root nor raises. -/
theorem c3_parser_nonterminating :
    ∀ fuel, p_parse [{ type := TokenType.IDENTIFIER, value := "x" },
                     { type := TokenType.EOF, value := "" }] fuel = PRes.spin := by
  intro fuel
  have h : ∀ f s, p_root_loop [{ type := TokenType.IDENTIFIER, value := "x" },
      { type := TokenType.EOF, value := "" }] f s 0 = PRes.spin := by
    intro f
    induction f with
    | zero => intro s; rfl
    | succ n ih => intro s; unfold p_root_loop; simp [STYLE_BEGIN, ih]
  unfold p_parse
  rw [h]

/-- C7 (code bug): an unterminated string literal is indeed fatal, but the
raised error is a bare `SyntaxError` carrying no source position — two inputs
whose unterminated strings begin at different positions produce the very same
error value, so the position where the string began is not reported. -/
theorem c7_unterminated_string_positionless :
    lexer_tokens { elements := [], properties := [] } true "'abc" = LexOutcome.stringError
    ∧ lexer_tokens { elements := [], properties := [] } true "x'abc" = LexOutcome.stringError :=
  ⟨rfl, rfl⟩

/-- C10: a character that is not whitespace, cannot start an identifier, is
not a quote, is none of the recognised single-character glyphs and does not
begin a recognised two-character operator is silently consumed: the scan step
emits no token, raises nothing and simply advances past it. -/
theorem c10_unknown_char_silently_consumed :
    ∀ (cfg : LexCfg) (st : LexState) (c : Char),
      st.text.get? st.index = some c →
      ¬ c.isWhitespace = true →
      ¬ is_identifier_start c = true →
      ¬ is_string_start c = true →
      c ∉ [',', '.', '#', '*', '+', '~', '>', ':', '=', ';', '(', ')', '\x7b', '\x7d', '[', ']'] →
      ¬ ((c = '|' ∨ c = '^' ∨ c = '$') ∧ st.text.get? (st.index + 1) = some '=') →
      scan_step cfg st = Except.ok (lex_advance st)
      ∧ (lex_advance st).tokens = st.tokens
      ∧ (lex_advance st).index = st.index + 1 := by
  intro cfg st c hget hws hid hstr hsingle htwo
  have hpunct : scan_punct st c = st := by
    simp only [List.mem_cons, not_or] at hsingle
    obtain ⟨h1, h2, h3, h4, h5, h6, h7, h8, h9, h10, h11, h12, h13, h14, h15, h16, _⟩ := hsingle
    have hpipe : ¬ (c = '|' ∧ st.text.get? (st.index + 1) = some '=') :=
      fun ⟨hc, hn⟩ => htwo ⟨Or.inl hc, hn⟩
    have hcaret : ¬ (c = '^' ∧ st.text.get? (st.index + 1) = some '=') :=
      fun ⟨hc, hn⟩ => htwo ⟨Or.inr (Or.inl hc), hn⟩
    have hdollar : ¬ (c = '$' ∧ st.text.get? (st.index + 1) = some '=') :=
      fun ⟨hc, hn⟩ => htwo ⟨Or.inr (Or.inr hc), hn⟩
    simp only [List.get?_eq_getElem?] at hpipe hcaret hdollar
    simp [scan_punct, h1, h2, h3, h4, h5, h6, h7, h8, h9, h10, h11, h12, h13, h14, h15, h16,
      hpipe, hcaret, hdollar]
  have hws2 : c.isWhitespace = false := Bool.not_eq_true _ ▸ hws
  have hid2 : is_identifier_start c = false := Bool.not_eq_true _ ▸ hid
  have hstr2 : is_string_start c = false := Bool.not_eq_true _ ▸ hstr
  refine ⟨?_, lex_advance_tokens st, lex_advance_index st⟩
  unfold scan_step
  simp only [List.get?_eq_getElem?] at hget
  simp [hget, hws2, hid2, hstr2, hpunct]

/-- C10 witness: `'@'` at the start of `"@a"` is consumed with no token and
no error. -/
theorem c10_witness :
    scan_step { elements := [], properties := [] }
        { text := "@a".data, index := 0, line := 0, column := 0, tokens := [] }
      = Except.ok (lex_advance
          { text := "@a".data, index := 0, line := 0, column := 0, tokens := [] })
    ∧ (lex_advance { text := "@a".data, index := 0, line := 0, column := 0, tokens := [] }).tokens
        = ({ text := "@a".data, index := 0, line := 0, column := 0, tokens := [] } : LexState).tokens
    ∧ (lex_advance { text := "@a".data, index := 0, line := 0, column := 0, tokens := [] }).index
        = ({ text := "@a".data, index := 0, line := 0, column := 0, tokens := [] } : LexState).index + 1 :=
  c10_unknown_char_silently_consumed { elements := [], properties := [] }
    { text := "@a".data, index := 0, line := 0, column := 0, tokens := [] } '@'
    rfl (by decide) (by decide) (by decide) (by decide) (by decide)

/-- The left-neighbour kinds that keep a `SPACE` token (can end a compound
selector). -/
def space_left_ok (left : Token) : Prop :=
  left.type = TokenType.HTML_ELEMENT ∨ left.type = TokenType.IDENTIFIER ∨
  left.type = TokenType.STAR ∨ left.type = TokenType.SQUARE_R

instance (left : Token) : Decidable (space_left_ok left) := by
  unfold space_left_ok
  infer_instance

/-- The right-neighbour kinds that keep a `SPACE` token (can start a compound
selector). -/
def space_right_ok (right : Token) : Prop :=
  right.type = TokenType.CLASS_PREF ∨ right.type = TokenType.ID_PREF ∨
  right.type = TokenType.HTML_ELEMENT ∨ right.type = TokenType.STAR

instance (right : Token) : Decidable (space_right_ok right) := by
  unfold space_right_ok
  infer_instance

/-- The per-index keep/drop decision asserted by the claim: a `SPACE` token is
kept exactly when its previous token can end a compound selector and its next
token can start one; other tokens are kept subject to `keep_eof`. -/
def clean_spec_f (keep_eof : Bool) (ts : List Token) (i : Nat) : Option Token :=
  match ts.get? i with
  | none => none
  | some current =>
    if current.type = TokenType.SPACE then
      if (decide (0 < i) && (ts.get? (i - 1)).any (fun left => decide (space_left_ok left))
          && (ts.get? (i + 1)).any (fun right => decide (space_right_ok right))) = true then
        some current
      else none
    else if keep_eof ∨ current.type ≠ TokenType.EOF then some current
    else none

theorem clean_aux (keep_eof : Bool) (ts : List Token) :
    ∀ (idxs : List Nat) (acc cs : List Token),
      idxs.foldlM (fun cleaned i =>
        match ts.get? i with
        | none => none
        | some current =>
          if current.type = TokenType.SPACE then
            if 0 < i ∧ i < ts.length then
              match ts.get? (i - 1), ts.get? (i + 1) with
              | some left, some right =>
                if (left.type = TokenType.HTML_ELEMENT ∨ left.type = TokenType.IDENTIFIER ∨
                    left.type = TokenType.STAR ∨ left.type = TokenType.SQUARE_R)
                   ∧ (right.type = TokenType.CLASS_PREF ∨ right.type = TokenType.ID_PREF ∨
                      right.type = TokenType.HTML_ELEMENT ∨ right.type = TokenType.STAR) then
                  some (cleaned ++ [current])
                else some cleaned
              | some _, none => none
              | none, _ => none
            else some cleaned
          else if keep_eof ∨ current.type ≠ TokenType.EOF then some (cleaned ++ [current])
          else some cleaned) acc = some cs →
      cs = acc ++ idxs.filterMap (clean_spec_f keep_eof ts) := by
  intro idxs
  induction idxs with
  | nil =>
    intro acc cs h
    cases h
    simp
  | cons i rest ih =>
    intro acc cs h
    simp only [List.foldlM_cons] at h
    cases hti : ts.get? i with
    | none => rw [hti] at h; cases h
    | some current =>
      simp only [hti] at h
      have hlen : i < ts.length := (List.get?_eq_some.mp hti).1
      have hti2 := hti
      simp only [List.get?_eq_getElem?] at hti2
      by_cases hsp : current.type = TokenType.SPACE
      · rw [if_pos hsp] at h
        by_cases hpos : 0 < i
        · rw [if_pos ⟨hpos, hlen⟩] at h
          cases hl : ts.get? (i - 1) with
          | none => simp only [hl] at h; cases h
          | some left =>
            simp only [hl] at h
            have hl2 := hl
            simp only [List.get?_eq_getElem?] at hl2
            cases hr : ts.get? (i + 1) with
            | none => simp only [hr] at h; cases h
            | some right =>
              simp only [hr] at h
              have hr2 := hr
              simp only [List.get?_eq_getElem?] at hr2
              by_cases hcond : space_left_ok left ∧ space_right_ok right
              · rw [if_pos ⟨hcond.1, hcond.2⟩] at h
                have hfi : clean_spec_f keep_eof ts i = some current := by
                  simp [clean_spec_f, hti2, hsp, hl2, hr2, hpos, hcond.1, hcond.2]
                rw [ih (acc ++ [current]) cs h, List.filterMap_cons_some hfi]
                simp
              · rw [if_neg (fun hand => hcond ⟨hand.1, hand.2⟩)] at h
                have hfi : clean_spec_f keep_eof ts i = none := by
                  rcases Decidable.not_and_iff_or_not.mp hcond with hb | hb
                  · simp [clean_spec_f, hti2, hsp, hl2, hr2, decide_eq_false hb]
                  · simp [clean_spec_f, hti2, hsp, hl2, hr2, decide_eq_false hb]
                rw [ih acc cs h, List.filterMap_cons_none hfi]
        · rw [if_neg (fun hand => hpos hand.1)] at h
          have hfi : clean_spec_f keep_eof ts i = none := by
            simp [clean_spec_f, hti2, hsp, hpos]
          rw [ih acc cs h, List.filterMap_cons_none hfi]
      · rw [if_neg hsp] at h
        by_cases hke : keep_eof = true ∨ current.type ≠ TokenType.EOF
        · rw [if_pos hke] at h
          have hfi : clean_spec_f keep_eof ts i = some current := by
            simp [clean_spec_f, hti2, hsp, hke]
          rw [ih (acc ++ [current]) cs h, List.filterMap_cons_some hfi]
          simp
        · rw [if_neg hke] at h
          have hfi : clean_spec_f keep_eof ts i = none := by
            simp [clean_spec_f, hti2, hsp, hke]
          rw [ih acc cs h, List.filterMap_cons_none hfi]

theorem c6_space_filter :
    ∀ (keep_eof : Bool) (ts cs : List Token),
      clean_tokens keep_eof ts = some cs →
      cs = (List.range ts.length).filterMap (clean_spec_f keep_eof ts) := by
  intro keep_eof ts cs h
  have := clean_aux keep_eof ts (List.range ts.length) [] cs h
  simpa using this

/-- C6 witness: over `a␣.␣x␣<EOF>` exactly the space between the element and
the class prefix survives. -/
theorem c6_witness :
    [element_token "a",
     { type := TokenType.SPACE, value := " ", line := none, column := none },
     { type := TokenType.CLASS_PREF, value := ".", line := none, column := none },
     { type := TokenType.IDENTIFIER, value := "x", line := none, column := none },
     ({ type := TokenType.EOF, value := "", line := none, column := none } : Token)]
    = (List.range 7).filterMap (clean_spec_f true
        [element_token "a",
         { type := TokenType.SPACE, value := " ", line := none, column := none },
         { type := TokenType.CLASS_PREF, value := ".", line := none, column := none },
         { type := TokenType.SPACE, value := " ", line := none, column := none },
         { type := TokenType.IDENTIFIER, value := "x", line := none, column := none },
         { type := TokenType.SPACE, value := " ", line := none, column := none },
         { type := TokenType.EOF, value := "", line := none, column := none }]) :=
  c6_space_filter true
    [element_token "a",
     { type := TokenType.SPACE, value := " ", line := none, column := none },
     { type := TokenType.CLASS_PREF, value := ".", line := none, column := none },
     { type := TokenType.SPACE, value := " ", line := none, column := none },
     { type := TokenType.IDENTIFIER, value := "x", line := none, column := none },
     { type := TokenType.SPACE, value := " ", line := none, column := none },
     { type := TokenType.EOF, value := "", line := none, column := none }]
    _ rfl


theorem except_map_map {ε α β γ : Type} (e : Except ε α) (f : α → β) (g : β → γ) :
    (e.map f).map g = e.map (g ∘ f) := by
  cases e <;> rfl

theorem strip_ws_append (a b : String) :
    strip_ws (a ++ b) = strip_ws a ++ strip_ws b := by
  simp only [strip_ws, String.data_append, List.filter_append]
  cases a
  cases b
  rfl

theorem data_isEmpty_append (a b : String) :
    (a ++ b).data.isEmpty = (a.data.isEmpty && b.data.isEmpty) := by
  rw [String.data_append]
  cases hd : a.data <;> simp [List.isEmpty]

theorem profile_append {a1 a2 b1 b2 : String}
    (ha : render_profile a1 = render_profile a2)
    (hb : render_profile b1 = render_profile b2) :
    render_profile (a1 ++ b1) = render_profile (a2 ++ b2) := by
  unfold render_profile at *
  have ha1 := congrArg Prod.fst ha
  have ha2 := congrArg Prod.snd ha
  have hb1 := congrArg Prod.fst hb
  have hb2 := congrArg Prod.snd hb
  simp only at ha1 ha2 hb1 hb2
  rw [Prod.mk.injEq]
  constructor
  · rw [strip_ws_append, strip_ws_append, ha1, hb1]
  · rw [data_isEmpty_append, data_isEmpty_append, ha2, hb2]

theorem join_profile :
    ∀ (l1 l2 : List String), l1.map render_profile = l2.map render_profile →
      render_profile (str_join l1) = render_profile (str_join l2) := by
  intro l1
  induction l1 with
  | nil =>
    intro l2 h
    cases l2 with
    | nil => rfl
    | cons b bs => cases h
  | cons a as ih =>
    intro l2 h
    cases l2 with
    | nil => cases h
    | cons b bs =>
      simp only [List.map_cons, List.cons.injEq] at h
      exact profile_append h.1 (ih bs h.2)

theorem mapE_profile_funs {α : Type} (F G : α → Except CErr String) (l : List α)
    (h : ∀ x ∈ l, (F x).map render_profile = (G x).map render_profile) :
    (mapE F l).map (List.map render_profile) = (mapE G l).map (List.map render_profile) := by
  induction l with
  | nil => rfl
  | cons a as ih =>
    have hhead := h a (List.mem_cons_self a as)
    have htail := ih (fun x hx => h x (List.mem_cons_of_mem a hx))
    unfold mapE
    cases hF : F a with
    | error e =>
      rw [hF] at hhead
      cases hG : G a with
      | error e2 =>
        rw [hG] at hhead
        cases hhead
        rfl
      | ok v2 => rw [hG] at hhead; cases hhead
    | ok v =>
      rw [hF] at hhead
      cases hG : G a with
      | error e2 => rw [hG] at hhead; cases hhead
      | ok v2 =>
        rw [hG] at hhead
        cases hF2 : mapE F as with
        | error e =>
          rw [hF2] at htail
          cases hG2 : mapE G as with
          | error e2 =>
            rw [hG2] at htail
            cases htail
            rfl
          | ok vs2 => rw [hG2] at htail; cases htail
        | ok vs =>
          rw [hF2] at htail
          cases hG2 : mapE G as with
          | error e2 => rw [hG2] at htail; cases htail
          | ok vs2 =>
            rw [hG2] at htail
            simp only [Except.map] at hhead htail ⊢
            simp only [Except.ok.injEq] at hhead htail
            simp only [List.map_cons, hhead, htail]

theorem mapE_profile_pair (F G : String → Except CErr (List String)) :
    ∀ (P Q : List String), P.map render_profile = Q.map render_profile →
    (∀ ps qs, render_profile ps = render_profile qs →
      (F ps).map (List.map render_profile) = (G qs).map (List.map render_profile)) →
    (mapE F P).map (List.map (List.map render_profile))
      = (mapE G Q).map (List.map (List.map render_profile)) := by
  intro P
  induction P with
  | nil =>
    intro Q hPQ _
    cases Q with
    | nil => rfl
    | cons b bs => cases hPQ
  | cons a as ih =>
    intro Q hPQ helem
    cases Q with
    | nil => cases hPQ
    | cons b bs =>
      simp only [List.map_cons, List.cons.injEq] at hPQ
      have hhead := helem a b hPQ.1
      have htail := ih bs hPQ.2 helem
      unfold mapE
      cases hF : F a with
      | error e =>
        rw [hF] at hhead
        cases hG : G b with
        | error e2 => rw [hG] at hhead; cases hhead; rfl
        | ok v2 => rw [hG] at hhead; cases hhead
      | ok v =>
        rw [hF] at hhead
        cases hG : G b with
        | error e2 => rw [hG] at hhead; cases hhead
        | ok v2 =>
          rw [hG] at hhead
          cases hF2 : mapE F as with
          | error e =>
            rw [hF2] at htail
            cases hG2 : mapE G bs with
            | error e2 => rw [hG2] at htail; cases htail; rfl
            | ok vs2 => rw [hG2] at htail; cases htail
          | ok vs =>
            rw [hF2] at htail
            cases hG2 : mapE G bs with
            | error e2 => rw [hG2] at htail; cases htail
            | ok vs2 =>
              rw [hG2] at htail
              simp only [Except.map] at hhead htail ⊢
              simp only [Except.ok.injEq] at hhead htail
              simp only [List.map_cons, hhead, htail]

theorem attr_profile (a : AttributeSelectorNode) :
    (a.parse_css).map render_profile = (a.parse_min_css).map render_profile := by
  unfold AttributeSelectorNode.parse_css AttributeSelectorNode.parse_min_css
  cases a.operator with
  | none => rfl
  | some op =>
    cases a.value with
    | none => rfl
    | some v =>
      simp only [Except.map]
      rw [Except.ok.injEq]
      unfold render_profile
      rw [Prod.mk.injEq]
      constructor
      · simp only [strip_ws_append]
        rw [show strip_ws " " = "" from rfl]
        simp
      · simp only [data_isEmpty_append]
        rw [show ("[" : String).data.isEmpty = false from rfl]
        simp

theorem pc_profile (p : PseudoClassNode) :
    (p.parse_css).map render_profile = (p.parse_min_css).map render_profile := by
  unfold PseudoClassNode.parse_css PseudoClassNode.parse_min_css
  have h := mapE_profile_funs AttributeSelectorNode.parse_css
    AttributeSelectorNode.parse_min_css p.attr_selector_nodes
    (fun x _ => attr_profile x)
  cases hF : mapE AttributeSelectorNode.parse_css p.attr_selector_nodes with
  | error e =>
    rw [hF] at h
    cases hG : mapE AttributeSelectorNode.parse_min_css p.attr_selector_nodes with
    | error e2 => rw [hG] at h; cases h; rfl
    | ok v2 => rw [hG] at h; cases h
  | ok attrs =>
    rw [hF] at h
    cases hG : mapE AttributeSelectorNode.parse_min_css p.attr_selector_nodes with
    | error e2 => rw [hG] at h; cases h
    | ok attrs2 =>
      rw [hG] at h
      simp only [Except.map, Except.ok.injEq] at h ⊢
      exact profile_append rfl (join_profile attrs attrs2 h)

theorem pe_profile (p : PseudoElementNode) :
    (p.parse_css).map render_profile = (p.parse_min_css).map render_profile := by
  unfold PseudoElementNode.parse_css PseudoElementNode.parse_min_css
  have h := mapE_profile_funs AttributeSelectorNode.parse_css
    AttributeSelectorNode.parse_min_css p.attr_selector_nodes
    (fun x _ => attr_profile x)
  cases hF : mapE AttributeSelectorNode.parse_css p.attr_selector_nodes with
  | error e =>
    rw [hF] at h
    cases hG : mapE AttributeSelectorNode.parse_min_css p.attr_selector_nodes with
    | error e2 => rw [hG] at h; cases h; rfl
    | ok v2 => rw [hG] at h; cases h
  | ok attrs =>
    rw [hF] at h
    cases hG : mapE AttributeSelectorNode.parse_min_css p.attr_selector_nodes with
    | error e2 => rw [hG] at h; cases h
    | ok attrs2 =>
      rw [hG] at h
      simp only [Except.map, Except.ok.injEq] at h ⊢
      exact profile_append rfl (join_profile attrs attrs2 h)

theorem seq_profile (s : SelectorSequenceNode) :
    (s.parse_css).map render_profile = (s.parse_min_css).map render_profile := by
  unfold SelectorSequenceNode.parse_css SelectorSequenceNode.parse_min_css
  have ha := mapE_profile_funs AttributeSelectorNode.parse_css
    AttributeSelectorNode.parse_min_css s.attribute_selectors
    (fun x _ => attr_profile x)
  cases hF : mapE AttributeSelectorNode.parse_css s.attribute_selectors with
  | error e =>
    rw [hF] at ha
    cases hG : mapE AttributeSelectorNode.parse_min_css s.attribute_selectors with
    | error e2 => rw [hG] at ha; cases ha; rfl
    | ok v2 => rw [hG] at ha; cases ha
  | ok attrs =>
    rw [hF] at ha
    cases hG : mapE AttributeSelectorNode.parse_min_css s.attribute_selectors with
    | error e2 => rw [hG] at ha; cases ha
    | ok attrs2 =>
      rw [hG] at ha
      simp only [Except.map, Except.ok.injEq] at ha
      have hp := mapE_profile_funs PseudoClassNode.parse_css
        PseudoClassNode.parse_min_css s.pseudo_class_nodes
        (fun x _ => pc_profile x)
      cases hF2 : mapE PseudoClassNode.parse_css s.pseudo_class_nodes with
      | error e =>
        rw [hF2] at hp
        cases hG2 : mapE PseudoClassNode.parse_min_css s.pseudo_class_nodes with
        | error e2 => rw [hG2] at hp; cases hp; rfl
        | ok v2 => rw [hG2] at hp; cases hp
      | ok pcs =>
        rw [hF2] at hp
        cases hG2 : mapE PseudoClassNode.parse_min_css s.pseudo_class_nodes with
        | error e2 => rw [hG2] at hp; cases hp
        | ok pcs2 =>
          rw [hG2] at hp
          simp only [Except.map, Except.ok.injEq] at hp ⊢
          exact profile_append (profile_append rfl (join_profile attrs attrs2 ha))
            (join_profile pcs pcs2 hp)

theorem comb_profile (v : String) (h : v ≠ "") :
    render_profile (" " ++ v ++ " ") = render_profile v := by
  unfold render_profile
  rw [Prod.mk.injEq]
  constructor
  · rw [strip_ws_append, strip_ws_append,
      show strip_ws " " = "" from rfl]
    simp
  · rw [data_isEmpty_append, data_isEmpty_append,
      show (" " : String).data.isEmpty = false from rfl]
    have hne : v.data.isEmpty = false := by
      cases v with
      | mk d =>
        cases d with
        | nil => exact absurd rfl h
        | cons c cs => rfl
    simp [hne]

theorem single_profile (n : SingleSelectorNode) (wf : wf_single n) :
    (n.parse_css).map render_profile = (n.parse_min_css).map render_profile := by
  unfold SingleSelectorNode.parse_css SingleSelectorNode.parse_min_css
  have hfirst := seq_profile n.first_selector_sequence_node
  cases hF : n.first_selector_sequence_node.parse_css with
  | error e =>
    rw [hF] at hfirst
    cases hG : n.first_selector_sequence_node.parse_min_css with
    | error e2 => rw [hG] at hfirst; cases hfirst; rfl
    | ok v2 => rw [hG] at hfirst; cases hfirst
  | ok first1 =>
    rw [hF] at hfirst
    cases hG : n.first_selector_sequence_node.parse_min_css with
    | error e2 => rw [hG] at hfirst; cases hfirst
    | ok first2 =>
      rw [hG] at hfirst
      simp only [Except.map, Except.ok.injEq] at hfirst
      have hpairs := mapE_profile_funs
        (fun pr => match SelectorSequenceNode.parse_css pr.2 with
          | Except.error e => Except.error e
          | Except.ok s =>
            Except.ok ((if pr.1.type ≠ TokenType.SPACE then " " ++ pr.1.value ++ " " else " ") ++ s))
        (fun pr => match SelectorSequenceNode.parse_min_css pr.2 with
          | Except.error e => Except.error e
          | Except.ok s => Except.ok (pr.1.value ++ s))
        n.combinator_selector_list ?helem
      case helem =>
        intro pr hpr
        have hseq := seq_profile pr.2
        cases hS : pr.2.parse_css with
        | error e =>
          rw [hS] at hseq
          cases hS2 : pr.2.parse_min_css with
          | error e2 =>
            rw [hS2] at hseq
            cases hseq
            simp only [hS, hS2]
          | ok v2 => rw [hS2] at hseq; cases hseq
        | ok s1 =>
          rw [hS] at hseq
          cases hS2 : pr.2.parse_min_css with
          | error e2 => rw [hS2] at hseq; cases hseq
          | ok s2 =>
            rw [hS2] at hseq
            simp only [Except.map, Except.ok.injEq] at hseq
            simp only [hS, hS2, Except.map, Except.ok.injEq]
            have hwf := wf pr hpr
            unfold wf_comb_token at hwf
            by_cases hsp : pr.1.type = TokenType.SPACE
            · rw [if_pos hsp] at hwf
              rw [if_neg (by simp [hsp]), hwf]
              exact profile_append rfl hseq
            · rw [if_neg hsp] at hwf
              rw [if_pos (by simp [hsp])]
              exact profile_append (comb_profile pr.1.value hwf) hseq
      cases hP : mapE (fun pr => match SelectorSequenceNode.parse_css pr.2 with
          | Except.error e => Except.error e
          | Except.ok s =>
            Except.ok ((if pr.1.type ≠ TokenType.SPACE then " " ++ pr.1.value ++ " " else " ") ++ s))
          n.combinator_selector_list with
      | error e =>
        rw [hP] at hpairs
        cases hQ : mapE (fun pr => match SelectorSequenceNode.parse_min_css pr.2 with
            | Except.error e => Except.error e
            | Except.ok s => Except.ok (pr.1.value ++ s)) n.combinator_selector_list with
        | error e2 => rw [hQ] at hpairs; cases hpairs; rfl
        | ok v2 => rw [hQ] at hpairs; cases hpairs
      | ok pairs1 =>
        rw [hP] at hpairs
        cases hQ : mapE (fun pr => match SelectorSequenceNode.parse_min_css pr.2 with
            | Except.error e => Except.error e
            | Except.ok s => Except.ok (pr.1.value ++ s)) n.combinator_selector_list with
        | error e2 => rw [hQ] at hpairs; cases hpairs
        | ok pairs2 =>
          rw [hQ] at hpairs
          simp only [Except.map, Except.ok.injEq] at hpairs
          cases hpe : n.pseudo_element_node with
          | none =>
            dsimp only
            exact congrArg Except.ok (profile_append (profile_append (profile_append rfl hfirst)
              (join_profile pairs1 pairs2 hpairs)) rfl)
          | some pe =>
            dsimp only
            have hpep := pe_profile pe
            cases hPE : pe.parse_css with
            | error e =>
              rw [hPE] at hpep
              cases hPE2 : pe.parse_min_css with
              | error e2 => rw [hPE2] at hpep; cases hpep; rfl
              | ok v2 => rw [hPE2] at hpep; cases hpep
            | ok pec1 =>
              rw [hPE] at hpep
              cases hPE2 : pe.parse_min_css with
              | error e2 => rw [hPE2] at hpep; cases hpep
              | ok pec2 =>
                rw [hPE2] at hpep
                simp only [Except.map, Except.ok.injEq] at hpep
                exact congrArg Except.ok (profile_append (profile_append (profile_append rfl hfirst)
                  (join_profile pairs1 pairs2 hpairs)) hpep)

theorem first_char_space_spec (s : String) :
    (s.data = [] ∧ first_char_space s = Except.error CErr.indexError)
    ∨ (s.data ≠ [] ∧ ∃ sp, first_char_space s = Except.ok sp ∧ strip_ws sp = "") := by
  unfold first_char_space
  cases hd : s.data with
  | nil => exact Or.inl ⟨rfl, rfl⟩
  | cons a as =>
    refine Or.inr ⟨by simp, ?_⟩
    dsimp only
    by_cases ha : a = '+' ∨ a = '~' ∨ a = '>'
    · exact ⟨"", by rw [if_pos ha], rfl⟩
    · exact ⟨" ", by rw [if_neg ha], rfl⟩

theorem flatten_map_profile {l1 l2 : List (List String)}
    (h : l1.map (List.map render_profile) = l2.map (List.map render_profile)) :
    l1.flatten.map render_profile = l2.flatten.map render_profile := by
  rw [List.map_flatten, List.map_flatten, h]

theorem parse_list_profile :
    ∀ (s : SelectorNode), wf_selector s →
      (s.parse_list_css).map (List.map render_profile)
        = (s.parse_list_min_css).map (List.map render_profile) := by
  suffices H : ∀ (n : Nat) (s : SelectorNode), s.depth ≤ n → wf_selector s →
      (s.parse_list_css).map (List.map render_profile)
        = (s.parse_list_min_css).map (List.map render_profile) by
    exact fun s wf => H s.depth s le_rfl wf
  intro n
  induction n with
  | zero =>
    intro s hle wf
    cases s with
    | mk singles parent =>
      cases parent with
      | some p => exact absurd hle (by simp [SelectorNode.depth])
      | none =>
        rw [SelectorNode.parse_list_css, SelectorNode.parse_list_min_css]
        exact mapE_profile_funs _ _ singles (fun x hx => single_profile x (wf x hx))
  | succ n ih =>
    intro s hle wf
    cases s with
    | mk singles parent =>
      cases parent with
      | none =>
        rw [SelectorNode.parse_list_css, SelectorNode.parse_list_min_css]
        exact mapE_profile_funs _ _ singles (fun x hx => single_profile x (wf x hx))
      | some p =>
        obtain ⟨wfs, wfp⟩ := wf
        have hdep : p.depth ≤ n := by
          simp only [SelectorNode.depth] at hle
          omega
        have hparent := ih p hdep wfp
        rw [SelectorNode.parse_list_css, SelectorNode.parse_list_min_css]
        cases hP : p.parse_list_css with
        | error e =>
          rw [hP] at hparent
          cases hQ : p.parse_list_min_css with
          | error e2 => rw [hQ] at hparent; cases hparent; rfl
          | ok v2 => rw [hQ] at hparent; cases hparent
        | ok P1 =>
          rw [hP] at hparent
          cases hQ : p.parse_list_min_css with
          | error e2 => rw [hQ] at hparent; cases hparent
          | ok P2 =>
            rw [hQ] at hparent
            simp only [Except.map, Except.ok.injEq] at hparent
            dsimp only
            have hout := mapE_profile_pair
              (fun parent_selector_string =>
                mapE (fun single =>
                  match SingleSelectorNode.parse_css single with
                  | Except.error e => Except.error e
                  | Except.ok single_css =>
                    match first_char_space single_css with
                    | Except.error e => Except.error e
                    | Except.ok space =>
                      Except.ok (parent_selector_string ++ space ++ single_css)) singles)
              (fun parent_selector_string =>
                mapE (fun single =>
                  match SingleSelectorNode.parse_min_css single with
                  | Except.error e => Except.error e
                  | Except.ok single_css =>
                    match first_char_space single_css with
                    | Except.error e => Except.error e
                    | Except.ok space =>
                      Except.ok (parent_selector_string ++ space ++ single_css)) singles)
              P1 P2 hparent ?hps
            case hps =>
              intro ps qs hpq
              refine mapE_profile_funs _ _ singles ?_
              intro single hsingle
              have hsp := single_profile single (wfs single hsingle)
              cases hC : single.parse_css with
              | error e =>
                rw [hC] at hsp
                cases hC2 : single.parse_min_css with
                | error e2 =>
                  rw [hC2] at hsp
                  cases hsp
                  simp only [hC, hC2]
                | ok c2 => rw [hC2] at hsp; cases hsp
              | ok c1 =>
                rw [hC] at hsp
                cases hC2 : single.parse_min_css with
                | error e2 => rw [hC2] at hsp; cases hsp
                | ok c2 =>
                  rw [hC2] at hsp
                  simp only [Except.map, Except.ok.injEq] at hsp
                  have hempty : c1.data.isEmpty = c2.data.isEmpty := congrArg Prod.snd hsp
                  have hstripc : strip_ws c1 = strip_ws c2 := congrArg Prod.fst hsp
                  rcases first_char_space_spec c1 with ⟨hnil1, hfc1⟩ | ⟨hne1, sp1, hfc1, hsp1⟩
                  · rcases first_char_space_spec c2 with ⟨hnil2, hfc2⟩ | ⟨hne2, sp2, hfc2, hsp2⟩
                    · simp only [hC, hC2, hfc1, hfc2]
                    · exfalso
                      rw [hnil1] at hempty
                      have hd2 : c2.data = [] := by
                        cases hx : c2.data with
                        | nil => rfl
                        | cons b bs => rw [hx] at hempty; cases hempty
                      exact hne2 hd2
                  · rcases first_char_space_spec c2 with ⟨hnil2, hfc2⟩ | ⟨hne2, sp2, hfc2, hsp2⟩
                    · exfalso
                      rw [hnil2] at hempty
                      have hd1 : c1.data = [] := by
                        cases hx : c1.data with
                        | nil => rfl
                        | cons b bs => rw [hx] at hempty; cases hempty
                      exact hne1 hd1
                    · have hic1 : c1.data.isEmpty = false := by
                        cases hx : c1.data with
                        | nil => exact absurd hx hne1
                        | cons a as => rfl
                      have hic2 : c2.data.isEmpty = false := by
                        cases hx : c2.data with
                        | nil => exact absurd hx hne2
                        | cons a as => rfl
                      simp only [hC, hC2, hfc1, hfc2, Except.map, Except.ok.injEq]
                      unfold render_profile
                      rw [Prod.mk.injEq]
                      constructor
                      · rw [strip_ws_append, strip_ws_append, strip_ws_append, strip_ws_append,
                          hsp1, hsp2, hstripc, show strip_ws ps = strip_ws qs from congrArg Prod.fst hpq]
                      · rw [data_isEmpty_append, data_isEmpty_append, data_isEmpty_append,
                          data_isEmpty_append, hic1, hic2]
                        simp
            cases hO : mapE (fun parent_selector_string =>
                mapE (fun single =>
                  match SingleSelectorNode.parse_css single with
                  | Except.error e => Except.error e
                  | Except.ok single_css =>
                    match first_char_space single_css with
                    | Except.error e => Except.error e
                    | Except.ok space =>
                      Except.ok (parent_selector_string ++ space ++ single_css)) singles) P1 with
            | error e =>
              rw [hO] at hout
              cases hO2 : mapE (fun parent_selector_string =>
                  mapE (fun single =>
                    match SingleSelectorNode.parse_min_css single with
                    | Except.error e => Except.error e
                    | Except.ok single_css =>
                      match first_char_space single_css with
                      | Except.error e => Except.error e
                      | Except.ok space =>
                        Except.ok (parent_selector_string ++ space ++ single_css)) singles) P2 with
              | error e2 => rw [hO2] at hout; cases hout; rfl
              | ok v2 => rw [hO2] at hout; cases hout
            | ok RS1 =>
              rw [hO] at hout
              cases hO2 : mapE (fun parent_selector_string =>
                  mapE (fun single =>
                    match SingleSelectorNode.parse_min_css single with
                    | Except.error e => Except.error e
                    | Except.ok single_css =>
                      match first_char_space single_css with
                      | Except.error e => Except.error e
                      | Except.ok space =>
                        Except.ok (parent_selector_string ++ space ++ single_css)) singles) P2 with
              | error e2 => rw [hO2] at hout; cases hout
              | ok RS2 =>
                rw [hO2] at hout
                simp only [Except.map, Except.ok.injEq] at hout
                exact congrArg Except.ok (flatten_map_profile hout)

/-- C8: the minified and pretty renderings agree on all non-whitespace
content — for every well-formed selector group the two expanded
selector-string lists are equal once separator (whitespace) characters are
removed, and every property renders the same `name`/`value` characters in
both modes. -/
theorem c8_renderings_agree :
    (∀ (s : SelectorNode), wf_selector s →
      (s.parse_list_css).map (List.map strip_ws)
        = (s.parse_list_min_css).map (List.map strip_ws))
    ∧ (∀ (p : PropertyNode), strip_ws p.parse_css = strip_ws p.parse_min_css) := by
  constructor
  · intro s wf
    have h := parse_list_profile s wf
    have h2 := congrArg (Except.map (List.map Prod.fst)) h
    rw [except_map_map, except_map_map] at h2
    have hfun : (List.map (Prod.fst (β := Bool)) ∘ List.map render_profile)
        = List.map strip_ws := by
      funext l
      simp only [Function.comp_apply, List.map_map]
      rfl
    rw [hfun] at h2
    exact h2
  · intro p
    unfold PropertyNode.parse_css PropertyNode.parse_min_css
    simp only [strip_ws_append]
    rw [show strip_ws "  " = "" from rfl, show strip_ws ": " = ":" from rfl,
      show strip_ws ":" = ":" from rfl]
    simp

/-- C8 witness: a well-formed selector with an explicit child combinator pair
strips to the same content in both modes. -/
theorem c8_witness :
    wf_selector (SelectorNode.mk
      [{ first_selector_sequence_node :=
           { sequence := [element_token "a"], attribute_selectors := [], pseudo_class_nodes := [] },
         combinator_selector_list :=
           [({ type := TokenType.CHILD, value := ">" },
             { sequence := [element_token "b"], attribute_selectors := [], pseudo_class_nodes := [] })],
         parent_combinator := none, pseudo_element_node := none }] none)
    ∧ (SelectorNode.parse_list_css (SelectorNode.mk
        [{ first_selector_sequence_node :=
             { sequence := [element_token "a"], attribute_selectors := [], pseudo_class_nodes := [] },
           combinator_selector_list :=
             [({ type := TokenType.CHILD, value := ">" },
               { sequence := [element_token "b"], attribute_selectors := [], pseudo_class_nodes := [] })],
           parent_combinator := none, pseudo_element_node := none }] none)).map (List.map strip_ws)
      = (SelectorNode.parse_list_min_css (SelectorNode.mk
        [{ first_selector_sequence_node :=
             { sequence := [element_token "a"], attribute_selectors := [], pseudo_class_nodes := [] },
           combinator_selector_list :=
             [({ type := TokenType.CHILD, value := ">" },
               { sequence := [element_token "b"], attribute_selectors := [], pseudo_class_nodes := [] })],
           parent_combinator := none, pseudo_element_node := none }] none)).map (List.map strip_ws) := by
  have hwf : wf_selector (SelectorNode.mk
      [{ first_selector_sequence_node :=
           { sequence := [element_token "a"], attribute_selectors := [], pseudo_class_nodes := [] },
         combinator_selector_list :=
           [({ type := TokenType.CHILD, value := ">" },
             { sequence := [element_token "b"], attribute_selectors := [], pseudo_class_nodes := [] })],
         parent_combinator := none, pseudo_element_node := none }] none) := by
    intro x hx
    simp only [List.mem_singleton] at hx
    subst hx
    intro pr hpr
    simp only [List.mem_singleton] at hpr
    subst hpr
    simp [wf_comb_token]
  exact ⟨hwf, c8_renderings_agree.1 _ hwf⟩

end SuperSS
